import Mathlib

/-
Shallow embedding of the uapi-json Air response parser
(src/Services/Air/AirParser.js) and of the ticket-issuance workflow that its
tests exercise.  JavaScript values read from the parsed uAPI documents are
modelled as Lean structures whose fields are Option-valued where the
corresponding property may be absent; an uncontrolled JavaScript TypeError
(property access on undefined) is modelled as the error value AirFail.typeError
of an Except computation, while the controlled throw of one of the parser's
error classes is modelled as the corresponding AirFail constructor.
Strings are modelled as Lean String and manipulated through the character
lists below; the regular expressions of the source, which are all fixed
concrete patterns, are implemented directly as total matchers over character
lists with the same backtracking behaviour.
-/

/-- JavaScript whitespace class \s, restricted to the ASCII whitespace
characters plus NBSP (the uncommon Unicode space characters are not used by
any input considered here). -/
def jsSpace (c : Char) : Bool :=
  c == ' ' || c == '\t' || c == '\n' || c == '\r' || c.toNat == 11 || c.toNat == 12 ||
    c.toNat == 160

/-- ASCII letter, both cases: the character class a-z under the i flag. -/
def isAlphaCh (c : Char) : Bool :=
  (65 ≤ c.toNat && c.toNat ≤ 90) || (97 ≤ c.toNat && c.toNat ≤ 122)

/-- ASCII digit. -/
def isDigitCh (c : Char) : Bool := 48 ≤ c.toNat && c.toNat ≤ 57

/-- Numeric value of a character once lowercase ASCII letters are folded to
uppercase; used for case-insensitive regex matching. -/
def upNat (c : Char) : Nat :=
  if 97 ≤ c.toNat ∧ c.toNat ≤ 122 then c.toNat - 32 else c.toNat

/-- Uppercase an ASCII character (model of String.prototype.toUpperCase on the
ASCII range). -/
def upCh (c : Char) : Char :=
  if 97 ≤ c.toNat ∧ c.toNat ≤ 122 then Char.ofNat (c.toNat - 32) else c

/-- Model of String.prototype.toUpperCase (ASCII range). -/
def upStr (s : String) : String := String.mk (s.data.map upCh)

/-- Case-insensitive character-list equality at the front: does pat occur as an
initial segment of l. -/
def ciStarts : List Char → List Char → Bool
  | [], _ => true
  | _ :: _, [] => false
  | p :: ps, c :: cs => (upNat p == upNat c) && ciStarts ps cs

/-- Case-insensitive substring containment, the semantics of testing the fixed
uppercase patterns of the source under the i flag. -/
def ciContainsL (pat : List Char) : List Char → Bool
  | [] => ciStarts pat []
  | c :: cs => ciStarts pat (c :: cs) || ciContainsL pat cs

/-- Case-insensitive substring test on strings. -/
def ciContains (s pat : String) : Bool := ciContainsL pat.data s.data

/-- Case-sensitive character-list equality at the front. -/
def csStarts : List Char → List Char → Bool
  | [], _ => true
  | _ :: _, [] => false
  | p :: ps, c :: cs => (p == c) && csStarts ps cs

/-- Case-sensitive substring containment (regexes of the source written
without the i flag). -/
def csContainsL (pat : List Char) : List Char → Bool
  | [] => csStarts pat []
  | c :: cs => csStarts pat (c :: cs) || csContainsL pat cs

/-- Case-sensitive substring test on strings. -/
def csContains (s pat : String) : Bool := csContainsL pat.data s.data

/-- JavaScript truthiness of a possibly absent string: undefined and the empty
string are falsy. -/
def truthyOptStr : Option String → Bool
  | none => false
  | some s => s ≠ ""

/- Sorting.  Array.prototype.sort is a stable comparison sort; for the
consistent comparators used by the source any stable sort computes the same
list, and it is modelled by insertion sort. -/

/-- Insert x into l in front of the first element y with le x y true
(stable insertion: x, which comes later in the original array, is placed
before later equal elements only when the comparator says so). -/
def insertLe (le : α → α → Bool) (x : α) : List α → List α
  | [] => [x]
  | y :: ys => if le x y then x :: y :: ys else y :: insertLe le x ys

/-- Insertion sort by a boolean comparator; model of Array.prototype.sort. -/
def sortByLe (le : α → α → Bool) : List α → List α
  | [] => []
  | x :: xs => insertLe le x (sortByLe le xs)

/-- Lexicographic comparison of character lists by code unit, the default
(undefined-comparator) ordering of Array.prototype.sort on strings. -/
def charListLe : List Char → List Char → Bool
  | [], _ => true
  | _ :: _, [] => false
  | a :: as, b :: bs =>
    if a.toNat < b.toNat then true
    else if b.toNat < a.toNat then false
    else charListLe as bs

/-- Default JavaScript string ordering. -/
def strLeB (a b : String) : Bool := charListLe a.data b.data

/- ------------------------------------------------------------------ -/
/- parseFareCalculation and its regular expressions (AirParser.js 15-39) -/
/- ------------------------------------------------------------------ -/

/-- The tail condition of the fareCalculationPattern group ($|\s): the
remainder after the literal END is either empty or begins with whitespace. -/
def endsOk : List Char → Bool
  | [] => true
  | c :: _ => jsSpace c

/-- Does the list begin with the literal END followed by end-of-input or
whitespace. -/
def isENDat (l : List Char) : Bool :=
  decide (l.take 3 = ['E', 'N', 'D']) && endsOk (l.drop 3)

/-- Index of the greedy match of fareCalculationPattern
(^([\s\S]+)END($|\s)): the largest i ≥ 1 such that END($|\s) matches at
position i; none when the string does not match the pattern. -/
def fcIdx (l : List Char) : Option Nat :=
  ((List.range l.length).filter (fun i => decide (1 ≤ i) && isENDat (l.drop i))).getLast?

/-- Match \s*\( at the head of the list; on success return the remainder after
the parenthesis.  The star is greedy, and since a space is never a
parenthesis the greedy match is the only one. -/
def trySepAt (l : List Char) : Option (List Char) :=
  match l.dropWhile jsSpace with
  | '(' :: r => some r
  | _ => none

/-- One-shot String.prototype.replace of /\s*\(/ by a period: only the
leftmost match is replaced. -/
def replFirstSep : List Char → List Char
  | [] => []
  | c :: rest =>
    match trySepAt (c :: rest) with
    | some r => '.' :: r
    | none => c :: replFirstSep rest

/-- Fuel-driven body of replAllSep; the fuel is an upper bound on the number
of characters still to be consumed, and every step consumes at least one. -/
def replAllSepFuel : Nat → List Char → List Char
  | 0, l => l
  | _ + 1, [] => []
  | n + 1, c :: rest =>
    match trySepAt (c :: rest) with
    | some r => '.' :: replAllSepFuel n r
    | none => c :: replAllSepFuel n rest

/-- Replacement of every /\s*\(/ by a period.  This is not what the source
does; it is the reading of the specification sentence that all embedded
parenthetical separators are normalized, kept for comparison with
replFirstSep. -/
def replAllSep (l : List Char) : List Char := replAllSepFuel l.length l

/-- Three leading ASCII letters, the capture group ([a-z]{3}) under the i
flag; the capture keeps the original case. -/
def take3Alpha : List Char → Option String
  | a :: b :: c :: _ =>
    if isAlphaCh a && isAlphaCh b && isAlphaCh c then some (String.mk [a, b, c]) else none
  | _ => none

/-- Consume \s+ (at least one whitespace character, then greedily all of
them); whitespace and letters are disjoint so greediness never needs to
backtrack here. -/
def skipSpaces1 : List Char → Option (List Char)
  | [] => none
  | c :: rest => if jsSpace c then some (rest.dropWhile jsSpace) else none

/-- Match (?:\d{2}[a-z]{3}\d{2}\s+)?([a-z]{3}) at the head of the list: first
try with the optional date token consumed, and on failure backtrack to the
bare three-letter capture. -/
def tryDateTok (l : List Char) : Option String :=
  match l with
  | d1 :: d2 :: a1 :: a2 :: a3 :: d3 :: d4 :: rest =>
    if isDigitCh d1 && isDigitCh d2 && isAlphaCh a1 && isAlphaCh a2 && isAlphaCh a3 &&
        isDigitCh d3 && isDigitCh d4 then
      match skipSpaces1 rest with
      | some rest2 =>
        match take3Alpha rest2 with
        | some o => some o
        | none => take3Alpha l
      | none => take3Alpha l
    else take3Alpha l
  | _ => take3Alpha l

/-- firstOriginPattern: ^(?:s-)?(?:\d{2}[a-z]{3}\d{2}\s+)?([a-z]{3}) with the
i flag; returns the captured group. -/
def firstOriginMatch (l : List Char) : Option String :=
  match l with
  | a :: '-' :: rest =>
    if a == 's' || a == 'S' then
      match tryDateTok rest with
      | some o => some o
      | none => tryDateTok l
    else tryDateTok l
  | _ => tryDateTok l

/-- Take a maximal non-empty run of digits: (digits, remainder). -/
def digits1 (l : List Char) : Option (List Char × List Char) :=
  match l with
  | c :: rest =>
    if isDigitCh c then some (c :: rest.takeWhile isDigitCh, rest.dropWhile isDigitCh)
    else none
  | [] => none

/-- Match ((?:\d+\.)?\d+) at the head of the list, the capture of the ROE
pattern: a digit run, optionally continued by a period and a second digit
run; if the period is not followed by digits the optional group backtracks
away. -/
def roeAt (l : List Char) : Option String :=
  match digits1 l with
  | none => none
  | some (ds, r) =>
    match r with
    | '.' :: r2 =>
      match digits1 r2 with
      | some (ds2, _) => some (String.mk (ds ++ '.' :: ds2))
      | none => some (String.mk ds)
    | _ => some (String.mk ds)

/-- Leftmost match of /ROE((?:\d+\.)?\d+)/ (case-sensitive): scan left to
right for the literal ROE followed by a numeric capture. -/
def roeScan : List Char → Option String
  | [] => none
  | c :: rest =>
    match c, rest with
    | 'R', 'O' :: 'E' :: r2 =>
      (match roeAt r2 with
       | some s => some s
       | none => roeScan rest)
    | _, _ => roeScan rest

/-- Result record of parseFareCalculation.  In the source the firstOrigin and
roe properties are present only when the corresponding optional pattern
matched; both are Option-valued here. -/
structure FareCalcOut where
  fareCalculation : String
  firstOrigin : Option String
  roe : Option String
deriving DecidableEq, Repr

/-- parseFareCalculation (AirParser.js 26-39).  When the string does not
match fareCalculationPattern the source evaluates str.match(...)[1] on null
and crashes with a TypeError; that failure is the none result. -/
def parseFareCalculation (s : String) : Option FareCalcOut :=
  match fcIdx s.data with
  | none => none
  | some i =>
    some { fareCalculation := String.mk (replFirstSep (s.data.take i))
           firstOrigin := firstOriginMatch s.data
           roe := roeScan s.data }

/-- Reading of the specification sentence for the fare-calculation parser
with every embedded parenthetical separator normalized to a period (the
source normalizes only the first); kept for the refinement comparison. -/
def parseFareCalculationSpec (s : String) : Option FareCalcOut :=
  match fcIdx s.data with
  | none => none
  | some i =>
    some { fareCalculation := String.mk (replAllSep (s.data.take i))
           firstOrigin := firstOriginMatch s.data
           roe := roeScan s.data }

/- ------------------------------------------------------------------ -/
/- Error taxonomy                                                      -/
/- ------------------------------------------------------------------ -/

/-- Failures of the parser layer.  typeError is an uncontrolled JavaScript
TypeError (property access on undefined, or a method call on null); every
other constructor is a controlled throw of one of the error classes of
AirErrors.js or RequestErrors.js.  Where the claim under study depends on a
payload the constructor carries it: noAgreement carries the extracted pcc
and uapiServiceError carries the fault text attached to the thrown error
(the faultstring of sourceWithFaultString, or the screen text for the host
error codes). -/
inductive AirFail where
  | typeError
  | unhandledError
  | noAgreement (pcc : Option String)
  | unableToRetrieve
  | unableToRetrieveTicket
  | accessedByAnotherTransaction
  | uapiServiceError (fault : Option String)
  | noSeatsAvailable
  | noResidualValue
  | ticketsNotIssued
  | noReservationToImport
  | invalidRequestData
  | ticketInfoIncomplete
  | segmentWaitlisted
  | segmentBookingFailed
  | noResultsFound
  | duplicateTicketFound
  | reservationsMissing
  | reservationProviderInfoMissing
  | histogramTypeInvalid
  | noValidFare
  | staleData
  | travelersListError
deriving DecidableEq, Repr

/- ------------------------------------------------------------------ -/
/- countHistogram (AirParser.js 60-83)                                 -/
/- ------------------------------------------------------------------ -/

/-- Input of countHistogram: either not an array (Array.isArray false), an
array of passenger-type code strings, or an array of objects each carrying a
Code string (the source decides between the last two by inspecting the first
element; mixed arrays are not modelled).  For the objects case the list
holds the Code values. -/
inductive HistInput where
  | notArray
  | codes (l : List String)
  | objs (l : List String)
deriving DecidableEq, Repr

/-- JavaScript object assignment a[k] = v: an existing key keeps its
position, a new key is appended. -/
def setKey : List (String × Nat) → String → Nat → List (String × Nat)
  | [], k, v => [(k, v)]
  | (k2, v2) :: rest, k, v =>
    if k2 = k then (k2, v) :: rest else (k2, v2) :: setKey rest k v

/-- JavaScript a[k] += 1 for a key that is present (in the histogram loop the
increment branch only runs when the key was just written). -/
def bumpKey : List (String × Nat) → String → List (String × Nat)
  | [], _ => []
  | (k2, v2) :: rest, k =>
    if k2 = k then (k2, v2 + 1) :: rest else (k2, v2) :: bumpKey rest k

/-- The counting loop of countHistogram: walk the sorted array, writing 1 at
a value different from the previous one and incrementing otherwise. -/
def histLoop (prev : Option String) (a : List (String × Nat)) :
    List String → List (String × Nat)
  | [] => a
  | x :: xs =>
    if some x ≠ prev then histLoop (some x) (setKey a x 1) xs
    else histLoop (some x) (bumpKey a x) xs

/-- Array.prototype.sort() without comparator on an array of strings. -/
def jsSortStrings (l : List String) : List String := sortByLe strLeB l

/-- The histogram object computed for a list of code strings. -/
def histOf (l : List String) : List (String × Nat) := histLoop none [] (jsSortStrings l)

/-- countHistogram (AirParser.js 60-83).  The result carries the final state
of the argument array next to the histogram: arr.sort() sorts the caller's
array in place when the array holds plain codes, while for an array of
objects the map over Code rebinds arr to a fresh array and the caller's
array is left untouched.  A non-array input throws HistogramTypeInvalid. -/
def countHistogram : HistInput → Except AirFail (List (String × Nat) × HistInput)
  | .notArray => .error .histogramTypeInvalid
  | .codes l => .ok (histOf l, .codes (jsSortStrings l))
  | .objs l => .ok (histOf l, .objs l)

/- ------------------------------------------------------------------ -/
/- Raw response documents                                              -/
/- ------------------------------------------------------------------ -/

/-- One entry of the common ResponseMessage list.  text is the element text
(the underscore property of the parsed node), typeAttr and code the Type and
Code attributes.  Code attributes arrive from the XML layer as strings; the
comparison Code === 1301 of extractBookings, between a string and a number,
is therefore never true and is modelled as false below. -/
structure RespMsg where
  text : Option String
  typeAttr : Option String
  code : Option String
deriving Repr

/-- air:DocumentFailureInfo. -/
structure DocFailure where
  message : Option String
  code : Option String
deriving Repr

/-- One air:AirSegmentError entry. -/
structure SegError where
  errorMessage : Option String
deriving Repr

/-- The structured error-info block (common ErrorInfo or
air:AvailabilityErrorInfo): Code, Description and the segment error list. -/
structure UErrorInfo where
  code : Option String
  description : Option String
  airSegmentErrors : Option (List SegError)
deriving Repr

/-- The detail node of a SOAP fault. -/
structure UDetail where
  errorInfo : Option UErrorInfo
  availabilityErrorInfo : Option UErrorInfo
deriving Repr

/-- Name node of a traveler inside an ETR (common BookingTravelerName). -/
structure EtrName where
  first : Option String
  prefixStr : Option String
  last : Option String
deriving Repr

/-- One common BookingTraveler entry of an ETR. -/
structure EtrTraveler where
  name : Option EtrName
deriving Repr

/-- One air:FareInfo entry of the pricing info inside an ETR. -/
structure EtrFare where
  fareBasis : Option String
deriving Repr

/-- One air:BookingInfo entry of the pricing info inside an ETR. -/
structure EtrBookingInfo where
  fareInfoRef : Option String
  cabinClass : Option String
deriving Repr

/-- The air:AirPricingInfo value inside an ETR (after firstInObj).  Only the
fields the parser reads are modelled; TaxInfo and the price fields, which
feed output fields outside the claims under study, are omitted. -/
structure EtrPricing where
  fareCalc : Option String
  fareInfos : Option (List (String × EtrFare))
  bookingInfos : Option (List EtrBookingInfo)
deriving Repr

/-- One air:Coupon entry of a ticket. -/
structure RawCoupon where
  couponNumber : Option String
  origin : Option String
  destination : Option String
  departureTime : Option String
  marketingCarrier : Option String
  marketingFlightNumber : Option String
  status : Option String
  notValidBefore : Option String
  notValidAfter : Option String
  bookingClass : Option String
  stopoverCode : Option String
deriving Repr

/-- One air:ExchangedTicketInfo entry. -/
structure ExTicket where
  number : Option String
deriving Repr

/-- One air:Ticket entry of an ETR; the coupon map is keyed by uAPI reference
and kept in key order. -/
structure RawTicket where
  ticketNumber : Option String
  coupons : Option (List (String × RawCoupon))
  exchangedTicketInfo : Option (List ExTicket)
deriving Repr

/-- An electronic ticket record.  Fields the parser reads that feed only
output fields outside the claims under study (form of payment, credit card
data, commission, IATA number, the price fields) are omitted. -/
structure Etr where
  providerLocatorCode : Option String
  airReservationLocatorCode : Option String
  bookingTravelers : Option (List (String × EtrTraveler))
  airPricingInfo : Option (List (String × EtrPricing))
  tickets : Option (List (String × RawTicket))
  fareCalc : Option String
deriving Repr

/-- The air:ETR node of a ticket-retrieval response: either a single ETR (its
fields at top level) or a map of ETRs keyed by reference.  The source
distinguishes the two by probing the first property value for a
ProviderLocatorCode. -/
inductive EtrNode where
  | single (e : Etr)
  | multi (es : List (String × Etr))
deriving Repr

/-- Provider reservation info node (universal:ProviderReservationInfo value).
Only Key and LocatorCode are modelled; the creation and modification dates
and the owning PCC are plain copies into the output outside the claims under
study. -/
structure ProviderInfo where
  key : Option String
  locatorCode : Option String
deriving Repr

/-- Name attached to an air:TicketInfo entry. -/
structure TicketName where
  first : Option String
  last : Option String
deriving Repr

/-- One air:TicketInfo entry of air:DocumentInfo. -/
structure RawTicketInfo where
  number : Option String
  name : Option TicketName
  bookingTravelerRef : Option String
  airPricingInfoRef : Option String
deriving Repr

/-- One air:FareInfo value of a booking pricing info.  EffectiveDate feeds the
fare-quote group record; TourCode and the endorsements, plain copies into
omitted output fields, are not modelled. -/
structure RawFareInfo where
  effectiveDate : Option String
deriving Repr

/-- One air:BookingInfo entry of a booking pricing info. -/
structure RawBookingInfo where
  segmentRef : Option String
deriving Repr

/-- One air:PassengerType entry. -/
structure RawPassengerType where
  code : String
deriving Repr

/-- One air:TicketingModifiers value. -/
structure TModifier where
  platingCarrier : Option String
deriving Repr

/-- One air:AirPricingInfo value of a booking (keyed map entry).  The TaxInfo
list and the price strings other than TotalPrice/BasePrice, which are plain
copies into the output, are omitted. -/
structure RawPricingInfo where
  group : Option String
  bookingInfos : Option (List RawBookingInfo)
  travelerRefs : Option (List String)
  fareInfos : Option (List (String × RawFareInfo))
  passengerTypes : List RawPassengerType
  ticketingModifiersRefKeys : Option (List String)
  fareCalc : Option String
  totalPrice : Option String
  basePrice : Option String
deriving Repr

/-- One air:AirReservation entry of a universal record.  Segment data is
consumed through the external AirFormat module and is not modelled. -/
structure RawBooking where
  providerReservationInfoRef : Option String
  locatorCode : Option String
  travelerRefs : Option (List String)
  documentInfoTickets : Option (List RawTicketInfo)
  airPricingInfos : Option (List (String × RawPricingInfo))
  ticketingModifiers : Option (List (String × TModifier))
deriving Repr

/-- One common BookingTraveler entry of a universal record; only presence is
needed (the name and email nodes feed the external AirFormat builder). -/
structure URTraveler where
  present : Bool
deriving Repr

/-- The universal:UniversalRecord node.  The general remarks and passive
reservations, which feed the splitBookings and serviceSegments output fields
outside the claims under study, are omitted. -/
structure URec where
  locatorCode : Option String
  version : Option String
  bookingTravelers : Option (List (String × URTraveler))
  providerReservationInfo : Option (List (String × ProviderInfo))
  airReservations : Option (List RawBooking)
deriving Repr

/-- A parsed uAPI response document: one bag of optional nodes, as in the
dynamically typed source, of which each parser entry point reads the part it
expects.  responseMessages models the common ResponseMessage list, with
absence collapsed to the empty list because every read defaults it. -/
structure RawDoc where
  faultcode : Option String
  faultstring : Option String
  detail : Option UDetail
  responseMessages : List RespMsg
  documentFailureInfo : Option DocFailure
  etr : Option EtrNode
  universalRecord : Option URec
  airSegmentSellFailureInfo : Bool
  universalRecordLocatorCode : Option String
deriving Repr

/- ------------------------------------------------------------------ -/
/- getUAPIErrorMessage / processUAPIError (AirParser.js 434-486)       -/
/- ------------------------------------------------------------------ -/

/-- The default fallback message of getUAPIErrorMessage. -/
def msgFallback : String := "UAPI Service resulted in an error"

/-- getUAPIErrorMessage (AirParser.js 434-459): the faultstring when truthy,
else the text of the first response message (its default applies only when
the text property is absent), else the Message of the document-failure
block, else null. -/
def getUAPIErrorMessage (source : RawDoc) : Option String :=
  if truthyOptStr source.faultstring then source.faultstring
  else
    match source.responseMessages with
    | m :: _ => some (m.text.getD msgFallback)
    | [] =>
      match source.documentFailureInfo with
      | some d => some (d.message.getD msgFallback)
      | none => none

/-- processUAPIError (AirParser.js 461-486).  pccOf models the external
utils.getErrorPcc, the PCC-token extraction from the message.  A falsy
resolved message (null or the empty string) yields the unhandled error
wrapping a generic AirRuntimeError; otherwise the fixed free-text patterns
are tested in order. -/
def processUAPIError (pccOf : Option String → Option String) (source : RawDoc) : AirFail :=
  match getUAPIErrorMessage source with
  | none => .unhandledError
  | some m =>
    if m = "" then .unhandledError
    else
      let pcc := pccOf (some m)
      if ciContains m "NO AGENCY AGREEMENT" then .noAgreement pcc
      else if ciContains m "UNABLE TO RETRIEVE" then .unableToRetrieve
      else if ciContains m "HOST ERROR DURING TICKET RETRIEVE" then .unableToRetrieveTicket
      else if ciContains m "ACCESSED BY ANOTHER TRANSACTION" then .accessedByAnotherTransaction
      else .uapiServiceError (some (upStr m))

/-- The structured error-info block resolved by the try block of the error
handlers: detail's common ErrorInfo, or its air:AvailabilityErrorInfo; none
when the detail node or both blocks are absent, in which case the property
access inside the try block raised and the catch runs processUAPIError. -/
def errorInfoOf (rsp : RawDoc) : Option UErrorInfo :=
  rsp.detail.bind fun d =>
    match d.errorInfo with
    | some e => some e
    | none => d.availabilityErrorInfo

/-- The exact faultstring dispatched to TicketInfoIncomplete under code 3000. -/
def ticketIncompletePhrase : String :=
  "At least one valid locator code or ticket number or tcr number or service fee info should have been specified"

/-- The waitlisted-segment phrase scanned for in the segment error list. -/
def waitlistPhrase : String := "Booking is not complete due to waitlisted segment"

/-- AirErrorHandler (AirParser.js 488-544): dispatch on the structured error
code, falling back to processUAPIError when the code is missing or
unrecognized.  The function always throws; its result is the thrown error. -/
def AirErrorHandler (pccOf : Option String → Option String) (rsp : RawDoc) : AirFail :=
  match errorInfoOf rsp with
  | none => processUAPIError pccOf rsp
  | some ei =>
    let code := ei.code
    let pcc := pccOf rsp.faultstring
    if code = some "20" then .noSeatsAvailable
    else if code = some "345" ∨ code = some "1512" then
      match pcc with
      | some p => .noAgreement (some p)
      | none => .unableToRetrieve
    else if code = some "6207" ∨ code = some "6119" then .uapiServiceError ei.description
    else if code = some "4454" then .noResidualValue
    else if code = some "12009" then .ticketsNotIssued
    else if code = some "13003" then .noReservationToImport
    else if code = some "3003" then .invalidRequestData
    else if code = some "3000" then
      if rsp.faultstring = some ticketIncompletePhrase then .ticketInfoIncomplete
      else
        let msgs := (ei.airSegmentErrors.getD []).map (fun e => e.errorMessage)
        if (some waitlistPhrase) ∈ msgs then .segmentWaitlisted
        else .segmentBookingFailed
    else if code = some "2602" ∨ code = some "3037" then .noResultsFound
    else processUAPIError pccOf rsp

/-- responseHasNoTickets (AirParser.js 777-781): faultcode and faultstring
both present and the faultstring matches /has no tickets/. -/
def responseHasNoTickets (rsp : RawDoc) : Bool :=
  rsp.faultcode.isSome && rsp.faultstring.isSome &&
    csContains (rsp.faultstring.getD "") "has no tickets"

/-- airGetTicketsErrorHandler (AirParser.js 783-809): same structured-code
resolution, but code 3000 with a has-no-tickets faultstring returns the
response itself as a non-error result; 345 maps to NoAgreement; everything
else falls back to processUAPIError. -/
def airGetTicketsErrorHandler (pccOf : Option String → Option String) (rsp : RawDoc) :
    Except AirFail RawDoc :=
  match errorInfoOf rsp with
  | none => .error (processUAPIError pccOf rsp)
  | some ei =>
    let code := ei.code
    if code = some "3000" ∧ responseHasNoTickets rsp then .ok rsp
    else if code = some "345" then .error (.noAgreement (pccOf rsp.faultstring))
    else .error (processUAPIError pccOf rsp)

/- ------------------------------------------------------------------ -/
/- getTicketFromEtr / airGetTicket / airGetTickets (AirParser.js 546-821) -/
/- ------------------------------------------------------------------ -/

/-- Entry of the flattened allCoupons list built by getTicketFromEtr: the
coupon fields renamed, plus the map key and the StopoverCode-derived flag.
The fareBasisCode field, computed through the external
utils.formFareBasisCode, is omitted. -/
structure AllCoupon where
  key : String
  ticketNumber : Option String
  couponNumber : Option String
  fromAp : Option String
  toAp : Option String
  departure : Option String
  airline : Option String
  flightNumber : Option String
  status : Option String
  notValidBefore : Option String
  notValidAfter : Option String
  bookingClass : Option String
  stopover : Bool
deriving DecidableEq, Repr

/-- The allCoupons entry for one coupon map entry of a ticket. -/
def mkAllCoupon (tn : Option String) (kc : String × RawCoupon) : AllCoupon :=
  { key := kc.1
    ticketNumber := tn
    couponNumber := kc.2.couponNumber
    fromAp := kc.2.origin
    toAp := kc.2.destination
    departure := kc.2.departureTime
    airline := kc.2.marketingCarrier
    flightNumber := kc.2.marketingFlightNumber
    status := kc.2.status
    notValidBefore := kc.2.notValidBefore
    notValidAfter := kc.2.notValidAfter
    bookingClass := kc.2.bookingClass
    stopover := kc.2.stopoverCode == some "true" }

/-- Sequence a list of fallible computations, failing at the first error, as
a thrown exception aborts a JavaScript map. -/
def mapExc (f : α → Except ε β) : List α → Except ε (List β)
  | [] => .ok []
  | a :: as => do
    let b ← f a
    let bs ← mapExc f as
    .ok (b :: bs)

/-- The flattened allCoupons list (AirParser.js 587-608): per ticket, the
entries of its coupon map in key order; Object.entries on an absent coupon
map raises a TypeError. -/
def allCouponsOf : List RawTicket → Except AirFail (List AllCoupon) := fun ts =>
  (mapExc (fun t =>
    match t.coupons with
    | none => .error .typeError
    | some cs => .ok (cs.map (mkAllCoupon t.ticketNumber))) ts).map List.flatten

/-- Model of Array.prototype.findIndex returning an index option instead of
-1. -/
def findIdxN (p : α → Bool) : List α → Option Nat
  | [] => none
  | a :: as => if p a then some 0 else (findIdxN p as).map (· + 1)

/-- One returned coupon of a parsed ticket: the spread of the allCoupons
entry found by key (all fields absent in the unreachable not-found case),
the stopover flag taken from the next entry of the flattened list (true for
the last), and the service class of the booking info matched through the
fare basis. -/
structure CouponOut where
  key : Option String
  ticketNumber : Option String
  couponNumber : Option String
  fromAp : Option String
  toAp : Option String
  departure : Option String
  airline : Option String
  flightNumber : Option String
  status : Option String
  notValidBefore : Option String
  notValidAfter : Option String
  bookingClass : Option String
  stopover : Bool
  serviceClass : Option String
deriving DecidableEq, Repr

/-- The booking-info lookup of the coupons map (AirParser.js 627-643).  The
allCoupons records carry no FareBasis property, so coupon.FareBasis is
undefined and a fare matches exactly when its own FareBasis is also absent;
each match overwrites the previous one.  The result is the CabinClass
carried by the last matching booking info. -/
def bookingInfoFor (ap : Option EtrPricing) : Option EtrBookingInfo :=
  match ap with
  | none => none
  | some p =>
    match p.fareInfos with
    | none => none
    | some fis =>
      fis.foldl (fun acc kf =>
        if kf.2.fareBasis.isNone && p.bookingInfos.isSome then
          match (p.bookingInfos.getD []).find? (fun i => i.fareInfoRef == some kf.1) with
          | some b => some b
          | none => acc
        else acc) none

/-- The returned coupon for the coupon map key k (AirParser.js 618-655):
find the allCoupons entry with that key, spread it, and override the
stopover flag with the flag of the next entry of the flattened list (true
when there is none).  A failed find yields index -1, so the base fields come
from an absent entry and the next entry is the head of the list. -/
def mkCouponOut (ac : List AllCoupon) (ap : Option EtrPricing) (k : String) : CouponOut :=
  let found : Option AllCoupon :=
    match findIdxN (fun a => a.key == k) ac with
    | some i => ac.get? i
    | none => none
  let next : Option AllCoupon :=
    match findIdxN (fun a => a.key == k) ac with
    | some i => ac.get? (i + 1)
    | none => ac.get? 0
  let binfo := bookingInfoFor ap
  { key := found.map (fun a => a.key)
    ticketNumber := found.bind (fun a => a.ticketNumber)
    couponNumber := found.bind (fun a => a.couponNumber)
    fromAp := found.bind (fun a => a.fromAp)
    toAp := found.bind (fun a => a.toAp)
    departure := found.bind (fun a => a.departure)
    airline := found.bind (fun a => a.airline)
    flightNumber := found.bind (fun a => a.flightNumber)
    status := found.bind (fun a => a.status)
    notValidBefore := found.bind (fun a => a.notValidBefore)
    notValidAfter := found.bind (fun a => a.notValidAfter)
    bookingClass := found.bind (fun a => a.bookingClass)
    stopover :=
      match next with
      | some nc => nc.stopover
      | none => true
    serviceClass := binfo.bind (fun b => b.cabinClass) }

/-- One parsed ticket: number and its coupons. -/
structure TicketOutEtr where
  ticketNumber : Option String
  coupons : List CouponOut
deriving DecidableEq, Repr

/-- The tickets list of getTicketFromEtr (AirParser.js 610-662).  The coupon
maps were already traversed by allCouponsOf, so they are present here and
the default works only around the already-excluded crash. -/
def buildTickets (ac : List AllCoupon) (ap : Option EtrPricing) (ts : List RawTicket) :
    List TicketOutEtr :=
  ts.map (fun t =>
    { ticketNumber := t.ticketNumber
      coupons := (t.coupons.getD []).map (fun kc => mkCouponOut ac ap kc.1) })

/-- The exchanged ticket numbers pushed while mapping the tickets. -/
def exchangedTicketsOf (ts : List RawTicket) : List (Option String) :=
  ts.flatMap (fun t => (t.exchangedTicketInfo.getD []).map (fun e => e.number))

/-- One parsed passenger of an ETR. -/
structure EtrPassenger where
  firstName : String
  lastName : Option String
deriving DecidableEq, Repr

/-- The parsed ticket record returned by getTicketFromEtr.  Output fields fed
by the omitted input fields (form of payment, commission, prices, flags) are
omitted with them. -/
structure EtrTicketRecord where
  pnr : Option String
  uapiUrLocator : Option String
  uapiReservationLocator : Option String
  ticketNumber : Option String
  passengers : List EtrPassenger
  tickets : List TicketOutEtr
  exchangedTickets : List (Option String)
  fareCalculation : String
  firstOrigin : Option String
  roe : Option String
deriving DecidableEq, Repr

/-- Does the string match fareCalculationPattern. -/
def fareCalcMatches (s : String) : Bool := (fcIdx s.data).isSome

/-- The traveler names of an ETR (AirParser.js 554-563): the map access on
an absent traveler map raises, as does reading the name node or the First
property when absent; the first name is the First concatenated with the
Prefix (defaulting to the empty string). -/
def etrPassengers (etr : Etr) : Except AirFail (List EtrPassenger) := do
  let plist ← match etr.bookingTravelers with
    | none => throw AirFail.typeError
    | some l => pure l
  mapExc (fun kt => do
    let nm ← match kt.2.name with
      | none => throw AirFail.typeError
      | some nm => pure nm
    let fn ← match nm.first with
      | none => throw AirFail.typeError
      | some f => pure (f ++ nm.prefixStr.getD "")
    pure { firstName := fn, lastName := nm.last : EtrPassenger }) plist

/-- Object.values of the ticket map of an ETR; raises when the map is
absent. -/
def etrTicketsList (etr : Etr) : Except AirFail (List RawTicket) :=
  match etr.tickets with
  | none => .error .typeError
  | some l => .ok (l.map (fun kv => kv.2))

/-- tickets[0], whose ticketNumber the response reads; raises on an empty
ticket list. -/
def etrHeadTicket (tickets : List TicketOutEtr) : Except AirFail TicketOutEtr :=
  match tickets.head? with
  | none => .error .typeError
  | some t => .ok t

/-- The fare-calculation source and its parse (AirParser.js 689-691 and the
parseFareCalculation spread): the ETR FareCalc when it matches the pattern,
else the pricing-info FareCalc (raising when the pricing info is null);
reading the FareCalc of an absent node raises, as does the failed pattern
match inside parseFareCalculation. -/
def etrFareCalcOut (etr : Etr) (ap : Option EtrPricing) : Except AirFail FareCalcOut := do
  let fcSrc ← match etr.fareCalc with
    | none => throw AirFail.typeError
    | some s =>
      if fareCalcMatches s then pure (some s)
      else
        match ap with
        | none => throw AirFail.typeError
        | some p => pure p.fareCalc
  match fcSrc with
  | none => throw AirFail.typeError
  | some s =>
    match parseFareCalculation s with
    | none => throw AirFail.typeError
    | some r => pure r

/-- getTicketFromEtr (AirParser.js 546-739), restricted to the modelled
fields.  The stages run in source order so that the first raising access
determines the error: the provider-locator guard, the traveler names, the
ticket list with its coupon maps (allCouponsOf), the coupon construction,
the first ticket, and finally the fare-calculation source fed to
parseFareCalculation. -/
def getTicketFromEtr (etr : Etr) (obj : RawDoc) (allow : Bool) :
    Except AirFail EtrTicketRecord := do
  if ¬ allow ∧ ¬ truthyOptStr etr.providerLocatorCode then
    throw .ticketInfoIncomplete
  let passengers ← etrPassengers etr
  let ap : Option EtrPricing := etr.airPricingInfo.bind (fun l => l.head?.map (fun kv => kv.2))
  let ts ← etrTicketsList etr
  let ac ← allCouponsOf ts
  let tickets := buildTickets ac ap ts
  let exch := exchangedTicketsOf ts
  let t0 ← etrHeadTicket tickets
  let fc ← etrFareCalcOut etr ap
  pure { pnr := etr.providerLocatorCode
         uapiUrLocator := obj.universalRecordLocatorCode
         uapiReservationLocator := etr.airReservationLocatorCode
         ticketNumber := t0.ticketNumber
         passengers := passengers
         tickets := tickets
         exchangedTickets := exch
         fareCalculation := fc.fareCalculation
         firstOrigin := fc.firstOrigin
         roe := fc.roe }

/-- Result of airGetTicket: one record, or one per ETR of a multi-ETR
response. -/
inductive TicketResult where
  | one (r : EtrTicketRecord)
  | many (rs : List EtrTicketRecord)
deriving Repr

/-- airGetTicket (AirParser.js 741-775): document-failure dispatch (code 3273
to DuplicateTicketFound, anything else through processUAPIError), the
response-message error filter, then ETR parsing.  A multi-ETR map whose
first entry lacks a ProviderLocatorCode is mis-probed as a single ETR; the
map itself has no ProviderLocatorCode, so with the retrieval flag unset that
path throws TicketInfoIncomplete and with it set the traveler access on the
map raises. -/
def airGetTicket (pccOf : Option String → Option String) (allow : Bool) (obj : RawDoc) :
    Except AirFail TicketResult := do
  match obj.documentFailureInfo with
  | some f =>
    if f.code = some "3273" then throw .duplicateTicketFound
    else throw (processUAPIError pccOf obj)
  | none => pure ()
  if obj.responseMessages.any (fun m => m.typeAttr == some "Error" && m.code != some "12009") then
    throw (processUAPIError pccOf obj)
  match obj.etr with
  | none => throw (processUAPIError pccOf obj)
  | some (.single e) => return .one (← getTicketFromEtr e obj allow)
  | some (.multi []) => throw .typeError
  | some (.multi ((k0, e0) :: rest)) =>
    if truthyOptStr e0.providerLocatorCode then
      return .many (← mapExc (fun kv => getTicketFromEtr kv.2 obj allow) ((k0, e0) :: rest))
    else if allow then throw .typeError
    else throw .ticketInfoIncomplete

/-- airGetTickets (AirParser.js 811-821): a has-no-tickets fault yields the
empty ticket list; otherwise the single result of airGetTicket (with the
default parse parameters) is wrapped into a list. -/
def airGetTickets (pccOf : Option String → Option String) (obj : RawDoc) :
    Except AirFail (List EtrTicketRecord) :=
  if responseHasNoTickets obj then .ok []
  else
    match airGetTicket pccOf false obj with
    | .error e => .error e
    | .ok (.one t) => .ok [t]
    | .ok (.many ts) => .ok ts

/- ------------------------------------------------------------------ -/
/- extractBookings (AirParser.js 853-1194)                             -/
/- ------------------------------------------------------------------ -/

/-- One passenger entry of a parsed pricing info. -/
structure PIPassenger where
  ref : String
  isTicketed : Bool
  ticketNumber : Option String
deriving DecidableEq, Repr

/-- One parsed ticket of the booking (air:DocumentInfo ticket). -/
structure TicketOut where
  number : Option String
  firstName : Option String
  lastName : Option String
  passengerRef : Option String
  pricingInfoRef : Option String
deriving DecidableEq, Repr

/-- One parsed pricing info of a booking.  Output fields fed by the omitted
input fields (taxes info, baggage, pricing method and type, plating
carrier, time to reprice) are omitted with them. -/
structure PricingInfoOut where
  uapiPricingInfoRef : String
  group : Option String
  passengers : List PIPassenger
  segmentRefs : List (Option String)
  passengersCount : List (String × Nat)
  totalPrice : Option String
  basePrice : Option String
  fareCalculation : String
  firstOrigin : Option String
  roe : Option String
deriving DecidableEq, Repr

/-- The fare-quote group record written into fareQuotesCommon for the group
of each pricing info; a group with several pricing infos keeps the record of
the last one.  The endorsement, tour code and plating carrier fields are
omitted with their inputs. -/
structure FqCommon where
  uapiSegmentRefs : List (Option String)
  effectiveDate : Option String
deriving DecidableEq, Repr

/-- One fare-quote group of the booking output. -/
structure FareQuoteOut where
  pricingInfos : List PricingInfoOut
  passengerRefs : List String
  segmentRefs : List (Option String)
  effectiveDate : Option String
  index : Nat
deriving DecidableEq, Repr

/-- A normalized booking.  The passenger, email, segment and service-segment
output blocks, built through the external AirFormat module, are omitted, as
are the plain copies of the record dates and locators beyond pnr. -/
structure BookingOut where
  pnr : Option String
  fareQuotes : List FareQuoteOut
  tickets : List TicketOut
deriving Repr

/-- The object key under which a pricing info is grouped: its
AirPricingInfoGroup, an absent value stringifying to the key "undefined". -/
def jsGroupKey (p : PricingInfoOut) : String := p.group.getD "undefined"

/-- JavaScript object update acc[g] = (acc[g] || []).concat(p): the list of
an existing key grows in place, a new key is appended. -/
def groupAppend (g : String) (p : α) : List (String × List α) → List (String × List α)
  | [] => [(g, [p])]
  | (k, l) :: rest =>
    if k = g then (k, l ++ [p]) :: rest else (k, l) :: groupAppend g p rest

/-- Grouping reduce of the fare-quote pipeline: partition the list by key,
keys in first-occurrence order, each group in original order.  (The uAPI
group keys are non-numeric strings, so JavaScript object key order is
insertion order here.) -/
def groupByKey (key : α → String) (l : List α) : List (String × List α) :=
  l.foldl (fun acc p => groupAppend (key p) p acc) []

/-- Set the index field. -/
def setFqIndex (fq : FareQuoteOut) (n : Nat) : FareQuoteOut := { fq with index := n }

/-- Assign 1-based display indexes in order (the final map of the fare-quote
pipeline), starting at n. -/
def indexFrom (n : Nat) : List FareQuoteOut → List FareQuoteOut
  | [] => []
  | fq :: rest => setFqIndex fq n :: indexFrom (n + 1) rest

/-- The sort comparator of the fare-quote pipeline,
moment(fq1.effectiveDate) - moment(fq2.effectiveDate), for an abstract
date-parsing valuation pd standing for moment. -/
def fqLe (pd : Option String → Int) (f1 f2 : FareQuoteOut) : Bool :=
  decide (pd f1.effectiveDate ≤ pd f2.effectiveDate)

/-- One fare-quote group before sorting: the grouped pricing infos, their
concatenated passenger refs, and the spread of the fareQuotesCommon record
of the group (which always exists, every pricing info having written its
group). -/
def mkFareQuote (common : List (String × FqCommon)) (g : String × List PricingInfoOut) :
    FareQuoteOut :=
  { pricingInfos := g.2
    passengerRefs := g.2.flatMap (fun p => p.passengers.map (fun q => q.ref))
    segmentRefs := ((List.lookup g.1 common).map (fun c => c.uapiSegmentRefs)).getD []
    effectiveDate := (List.lookup g.1 common).bind (fun c => c.effectiveDate)
    index := 0 }

/-- The fare-quote pipeline of extractBookings (AirParser.js 1146-1169):
group the pricing infos by group key, build each group record, sort the
groups by the parsed effective date ascending, and assign 1-based indexes in
the sorted order. -/
def fareQuotesOf (pd : Option String → Int) (pis : List PricingInfoOut)
    (common : List (String × FqCommon)) : List FareQuoteOut :=
  indexFrom 1 (sortByLe (fqLe pd) ((groupByKey jsGroupKey pis).map (mkFareQuote common)))

/-- The passenger-count reduce of a pricing info
(acc[Code] = (acc[Code] || 0) + 1). -/
def countByCode (l : List RawPassengerType) : List (String × Nat) :=
  l.foldl (fun acc d =>
    match List.lookup d.code acc with
    | some n => setKey acc d.code (n + 1)
    | none => setKey acc d.code 1) []

/-- JavaScript truthiness filter used for the stored pricing-info ref of a
ticket: a falsy AirPricingInfoRef (absent or empty) is stored as null. -/
def jsTruthy (o : Option String) : Option String :=
  match o with
  | some s => if s = "" then none else some s
  | none => none

/-- The tickets block of extractBookings (AirParser.js 1024-1038); reading
the Name of a ticket info raises when the node is absent. -/
def buildTicketOuts : Option (List RawTicketInfo) → Except AirFail (List TicketOut)
  | none => .ok []
  | some l =>
    mapExc (fun t =>
      match t.name with
      | none => .error .typeError
      | some nm =>
        .ok { number := t.number
              firstName := nm.first
              lastName := nm.last
              passengerRef := t.bookingTravelerRef
              pricingInfoRef := jsTruthy t.airPricingInfoRef }) l

/-- utils.firstInObj: the value of the first own key of an object; an absent
object raises, an empty object yields undefined.  (utils is an external
module; this is its single-line evident semantics.) -/
def firstInObj : Option (List (String × β)) → Except AirFail (Option β)
  | none => .error .typeError
  | some xs => .ok (xs.head?.map (fun kv => kv.2))

/-- One step of the pricing-info traversal of extractBookings (AirParser.js
1040-1144): the parsed pricing info together with the fareQuotesCommon
record and the group key it writes.  Raising accesses in source order: the
ticketing-modifiers lookup when a modifier key is present but the booking
carries no modifiers map; the first fare info of a present fare-info map
that is empty (tour code, endorsement and effective date all read it); the
fare-calculation string, whose absence or failed pattern match raises inside
parseFareCalculation. -/
def buildPricingInfo (tm : Option (List (String × TModifier))) (tickets : List TicketOut)
    (k : String) (pi : RawPricingInfo) :
    Except AirFail (PricingInfoOut × FqCommon × String) := do
  let segRefs := (pi.bookingInfos.getD []).map (fun b => b.segmentRef)
  let pcount := countByCode pi.passengerTypes
  let modifierKey : Option String := pi.ticketingModifiersRefKeys.bind (fun l => l.head?)
  if modifierKey.isSome && tm.isNone then
    throw .typeError
  let firstFareInfo ← firstInObj pi.fareInfos
  let effDate ← match pi.fareInfos with
    | none => pure none
    | some _ =>
      match firstFareInfo with
      | none => throw AirFail.typeError
      | some ffi => pure ffi.effectiveDate
  let passengers := (pi.travelerRefs.getD []).map (fun ref =>
    match tickets.find? (fun t => t.passengerRef == some ref && t.pricingInfoRef == some k) with
    | some t => { ref := ref, isTicketed := true, ticketNumber := t.number : PIPassenger }
    | none => { ref := ref, isTicketed := false, ticketNumber := none : PIPassenger })
  let fc ← match pi.fareCalc with
    | none => throw AirFail.typeError
    | some s =>
      match parseFareCalculation s with
      | none => throw AirFail.typeError
      | some r => pure r
  pure ({ uapiPricingInfoRef := k
          group := pi.group
          passengers := passengers
          segmentRefs := segRefs
          passengersCount := pcount
          totalPrice := pi.totalPrice
          basePrice := pi.basePrice
          fareCalculation := fc.fareCalculation
          firstOrigin := fc.firstOrigin
          roe := fc.roe },
        { uapiSegmentRefs := segRefs, effectiveDate := effDate },
        pi.group.getD "undefined")

/-- JavaScript object assignment for the fareQuotesCommon map: an existing
key keeps its position and takes the new record, a new key is appended. -/
def setCommon : List (String × FqCommon) → String → FqCommon → List (String × FqCommon)
  | [], k, v => [(k, v)]
  | (k2, v2) :: rest, k, v =>
    if k2 = k then (k2, v) :: rest else (k2, v2) :: setCommon rest k v

/-- The pricing-info traversal: parsed infos in key order and the final
fareQuotesCommon map (each group key holding the record of its last pricing
info).  The trailing filter(Boolean) of the source never drops an object
and is a no-op. -/
def buildPricingInfos (tm : Option (List (String × TModifier))) (tickets : List TicketOut)
    (acc : List PricingInfoOut) (common : List (String × FqCommon)) :
    List (String × RawPricingInfo) →
    Except AirFail (List PricingInfoOut × List (String × FqCommon))
  | [] => .ok (acc, common)
  | (k, pi) :: rest => do
    let (out, fqc, g) ← buildPricingInfo tm tickets k pi
    buildPricingInfos tm tickets (acc ++ [out]) (setCommon common g fqc) rest

/-- Presence check of each booking traveler ref (AirParser.js 957-986): the
traveler map access raises when the map itself is absent, and a missing
traveler throws TravelersListError.  The passenger and email outputs, built
through the external AirFormat module, are not produced. -/
def validateTravelers (travelers : Option (List (String × URTraveler))) :
    List String → Except AirFail Unit
  | [] => .ok ()
  | r :: rs =>
    match travelers with
    | none => .error .typeError
    | some ts =>
      match List.lookup r ts with
      | none => .error .travelersListError
      | some _ => validateTravelers travelers rs

/-- One air:AirReservation of the air branch of extractBookings (AirParser.js
926-1193).  The provider info is looked up by reference (the lookup table
access raising when the table is absent); its Key is then read before the
missing-provider-info guard, so a failed lookup raises a TypeError and the
guard, kept here as in the source, is dead code. -/
def extractBooking (pd : Option String → Int) (rec : URec) (bk : RawBooking) :
    Except AirFail BookingOut := do
  let ri ← match rec.providerReservationInfo with
    | none => throw AirFail.typeError
    | some ri => pure ri
  let providerInfoOpt := bk.providerReservationInfoRef.bind (fun r => List.lookup r ri)
  let _providerInfoKey ← match providerInfoOpt with
    | none => throw AirFail.typeError
    | some pi => pure pi.key
  if providerInfoOpt.isNone then
    throw .reservationProviderInfoMissing
  let providerInfo := providerInfoOpt.getD { key := none, locatorCode := none }
  let trefs ← match bk.travelerRefs with
    | none => throw AirFail.typeError
    | some l => pure l
  let _ ← validateTravelers rec.bookingTravelers trefs
  let tickets ← buildTicketOuts bk.documentInfoTickets
  let (pis, common) ← buildPricingInfos bk.ticketingModifiers tickets [] []
    (bk.airPricingInfos.getD [])
  pure { pnr := providerInfo.locatorCode
         fareQuotes := fareQuotesOf pd pis common
         tickets := tickets }

/-- The response-message scan of extractBookings (AirParser.js 857-865): per
message in order, the no-valid-fare pattern first, then the stale-data
pattern; a regex applied to an absent text coerces it to the string
undefined.  The strict comparison of the string Code attribute with the
numeric stale-data constant is never true. -/
def checkMessages : List RespMsg → Option AirFail
  | [] => none
  | m :: ms =>
    if csContains (m.text.getD "undefined") "NO VALID FARE FOR INPUT CRITERIA" then
      some .noValidFare
    else if ciContains (m.text.getD "undefined") "FAILED REFRESH" ∨
        ciContains (m.text.getD "undefined") "DATA MAY BE STALE" ∨ False then
      some .staleData
    else checkMessages ms

/-- extractBookings (AirParser.js 853-1194), restricted to the modelled
fields: the message scan, the segment-sell-failure and missing-reservations
guards, then one output per provider reservation (when no air reservation is
present) or per air reservation. -/
def extractBookings (pd : Option String → Int) (doc : RawDoc) :
    Except AirFail (List BookingOut) := do
  match checkMessages doc.responseMessages with
  | some e => throw e
  | none => pure ()
  if doc.airSegmentSellFailureInfo then
    throw .segmentBookingFailed
  let rec0 ← match doc.universalRecord with
    | none => throw AirFail.typeError
    | some r => pure r
  let hasTravelers :=
    match rec0.bookingTravelers with
    | some ts => !ts.isEmpty
    | none => false
  let hasAir :=
    match rec0.airReservations with
    | some l => !l.isEmpty
    | none => false
  if !hasTravelers && !hasAir then
    throw .reservationsMissing
  if hasAir then
    mapExc (extractBooking pd rec0) (rec0.airReservations.getD [])
  else
    match rec0.providerReservationInfo with
    | none => throw AirFail.typeError
    | some ri =>
      pure (ri.map (fun kv =>
        { pnr := kv.2.locatorCode, fareQuotes := [], tickets := [] }))

/- ------------------------------------------------------------------ -/
/- Ticket-issuance workflow                                            -/
/- ------------------------------------------------------------------ -/

/-- Outcome of one external ticket-issue call. -/
inductive TOutcome where
  | ok
  | foidRequired
  | pnrBusy
  | otherFailure
deriving DecidableEq, Repr

/-- Terminal result of the ticketing machine, carrying the numbers of
ticket-issue calls, booking fetches and FOID applications made. -/
inductive TickRes where
  | done (ticketCalls fetchCalls foidCalls : Nat)
  | failed (k : TOutcome) (ticketCalls fetchCalls foidCalls : Nat)
  | exhausted (ticketCalls fetchCalls foidCalls : Nat)
deriving DecidableEq, Repr

/-- Modelled from the spec: the retry loop of the ticket-issuance workflow
(the Air service ticket method, which is not among the sources; only its
tests are).  Per specification section 4.3 and the behaviour its tests pin
down: a TicketingFoidRequired rejection applies FOID once, re-fetches the
booking and re-issues; a TicketingPNRBusy rejection re-issues against the
already fetched booking; each of the two retry kinds is used at most once
per invocation and any other failure propagates unchanged.  The script
lists the outcome of each successive ticket call; a script too short to
answer a call ends in the exhausted marker. -/
def issueLoop : List TOutcome → Bool → Bool → Nat → Nat → Nat → TickRes
  | [], _, _, t, f, d => .exhausted t f d
  | r :: rest, foidUsed, busyUsed, t, f, d =>
    match r with
    | .ok => .done (t + 1) f d
    | .foidRequired =>
      if foidUsed then .failed .foidRequired (t + 1) f d
      else issueLoop rest true busyUsed (t + 1) (f + 1) (d + 1)
    | .pnrBusy =>
      if busyUsed then .failed .pnrBusy (t + 1) f d
      else issueLoop rest foidUsed true (t + 1) f d
    | .otherFailure => .failed .otherFailure (t + 1) f d

/-- Modelled from the spec: one invocation of the ticketing machine starts by
fetching the booking (to resolve the currency and the reservation locator)
and then runs the issue loop with both retries available. -/
def ticketMachine (script : List TOutcome) : TickRes :=
  issueLoop script false false 0 1 0

/-- Counts of a terminal ticketing result:
(ticket calls, booking fetches, FOID applications). -/
def countsOf : TickRes → Nat × Nat × Nat
  | .done t f d => (t, f, d)
  | .failed _ t f d => (t, f, d)
  | .exhausted t f d => (t, f, d)

/-- Flatten the coupons of a parsed ticket list in order. -/
def flatCouponsOf (tks : List TicketOutEtr) : List CouponOut :=
  tks.flatMap (fun t => t.coupons)

/-- The structured error codes recognized by the switch of AirErrorHandler. -/
def recognizedCodes : List String :=
  ["20", "345", "1512", "6207", "6119", "4454", "12009", "13003", "3003", "3000", "2602", "3037"]

/- ------------------------------------------------------------------ -/
/- Concrete documents used to instantiate the theorems below           -/
/- ------------------------------------------------------------------ -/

/-- A response document with every optional node absent. -/
def emptyDoc : RawDoc :=
  { faultcode := none, faultstring := none, detail := none, responseMessages := [],
    documentFailureInfo := none, etr := none, universalRecord := none,
    airSegmentSellFailureInfo := false, universalRecordLocatorCode := none }

/-- Error info of a code-3000 fault whose segment errors carry the
waitlisted-segment phrase. -/
def eiC4 : UErrorInfo :=
  { code := some "3000", description := none,
    airSegmentErrors := some [{ errorMessage := some waitlistPhrase }] }

/-- A code-3000 fault document carrying a waitlisted-segment error. -/
def docC4 : RawDoc :=
  { emptyDoc with detail := some { errorInfo := some eiC4, availabilityErrorInfo := none } }

/-- Error info of a bare code-3000 fault. -/
def eiC5 : UErrorInfo := { code := some "3000", description := none, airSegmentErrors := none }

/-- A code-3000 has-no-tickets fault document. -/
def docC5 : RawDoc :=
  { emptyDoc with
    faultcode := some "Server.Business"
    faultstring := some "Host 1P has no tickets"
    detail := some { errorInfo := some eiC5, availabilityErrorInfo := none } }

/-- A document whose only failure signal is a response message with empty
text: the resolved fault message is the empty string. -/
def docC3empty : RawDoc :=
  { emptyDoc with responseMessages := [{ text := some "", typeAttr := none, code := none }] }

/-- A document whose faultstring matches the unable-to-retrieve pattern and
no structured error info. -/
def docC3unable : RawDoc :=
  { emptyDoc with faultstring := some "UNABLE TO RETRIEVE RECORD" }

/-- A success document whose single air reservation references a provider
reservation info that the (present) provider-info table does not contain. -/
def docC8 : RawDoc :=
  { emptyDoc with
    universalRecord := some
      { locatorCode := some "UR1", version := some "1"
        bookingTravelers := some [("BT1", { present := true })]
        providerReservationInfo := some []
        airReservations := some
          [{ providerReservationInfoRef := some "PR1", locatorCode := some "RES1"
             travelerRefs := some ["BT1"], documentInfoTickets := none
             airPricingInfos := none, ticketingModifiers := none }] } }

/-- A two-ticket electronic ticket record: three coupons whose StopoverCode
values are false, true and absent. -/
def etrC10 : Etr :=
  { providerLocatorCode := some "ABC123"
    airReservationLocatorCode := some "RLOC01"
    bookingTravelers := some
      [("T1", { name := some { first := some "JOHN", prefixStr := none, last := some "DOE" } })]
    airPricingInfo := some
      [("P1", { fareCalc := some "LON BA PAR 100.00 NUC100.00END ROE1.0"
                fareInfos := some [("F1", { fareBasis := none })]
                bookingInfos := some [{ fareInfoRef := some "F1", cabinClass := some "Economy" }] })]
    tickets := some
      [("TK1", { ticketNumber := some "0012345678901"
                 coupons := some
                   [("C1", { couponNumber := some "1", origin := some "LON", destination := some "PAR"
                             departureTime := some "2020-01-01T10:00", marketingCarrier := some "BA"
                             marketingFlightNumber := some "101", status := some "O"
                             notValidBefore := none, notValidAfter := none
                             bookingClass := some "Y", stopoverCode := some "false" }),
                    ("C2", { couponNumber := some "2", origin := some "PAR", destination := some "NCE"
                             departureTime := some "2020-01-02T10:00", marketingCarrier := some "BA"
                             marketingFlightNumber := some "102", status := some "O"
                             notValidBefore := none, notValidAfter := none
                             bookingClass := some "Y", stopoverCode := some "true" })]
                 exchangedTicketInfo := none }),
       ("TK2", { ticketNumber := some "0012345678902"
                 coupons := some
                   [("C3", { couponNumber := some "1", origin := some "NCE", destination := some "LON"
                             departureTime := some "2020-01-03T10:00", marketingCarrier := some "BA"
                             marketingFlightNumber := some "103", status := some "O"
                             notValidBefore := none, notValidAfter := none
                             bookingClass := some "Y", stopoverCode := none })]
                 exchangedTicketInfo := none })]
    fareCalc := some "LON BA PAR 100.00 NUC100.00END ROE1.0" }

/-- The ticket-retrieval document holding etrC10. -/
def docC10 : RawDoc :=
  { emptyDoc with universalRecordLocatorCode := some "UR123", etr := some (.single etrC10) }

/-- The ticket values of etrC10. -/
def tsC10 : List RawTicket := (etrC10.tickets.getD []).map (fun kv => kv.2)

/-- The first pricing info of etrC10. -/
def apC10 : Option EtrPricing :=
  etrC10.airPricingInfo.bind (fun l => l.head?.map (fun kv => kv.2))

/-- The flattened coupons of etrC10. -/
def acC10 : List AllCoupon :=
  tsC10.flatMap (fun t => (t.coupons.getD []).map (mkAllCoupon t.ticketNumber))

/-- The group keys of a list in first-occurrence order, matching the key
order of the object built by the grouping reduce. -/
def keysOccur (key : α → String) (l : List α) : List String :=
  l.foldl (fun ks p => if key p ∈ ks then ks else ks ++ [key p]) []

/-- Two pricing infos in distinct groups, instantiating the fare-quote
pipeline theorem. -/
def pisC1 : List PricingInfoOut :=
  [{ uapiPricingInfoRef := "PI1", group := some "G1", passengers := [], segmentRefs := []
     passengersCount := [], totalPrice := some "USD10.00", basePrice := some "USD8.00"
     fareCalculation := "LON", firstOrigin := some "LON", roe := some "1.0" },
   { uapiPricingInfoRef := "PI2", group := some "G2", passengers := [], segmentRefs := []
     passengersCount := [], totalPrice := some "USD20.00", basePrice := some "USD16.00"
     fareCalculation := "PAR", firstOrigin := some "PAR", roe := some "1.0" }]

/-- Group records with distinguishable effective dates. -/
def commonC1 : List (String × FqCommon) :=
  [("G1", { uapiSegmentRefs := [], effectiveDate := some "2020-09-09" }),
   ("G2", { uapiSegmentRefs := [], effectiveDate := some "20-01" })]

/-- A concrete date valuation standing for moment: the length of the date
string, enough to order the two dates of commonC1. -/
def pdC1 : Option String → Int := fun o => ((o.getD "").length : Int)

/- ------------------------------------------------------------------ -/
/- airPriceRspPricingSolutionXML (AirParser.js 339-427)                -/
/- ------------------------------------------------------------------ -/

/-- One air:PassengerType entry written by the passenger loop of
airPriceRspPricingSolutionXML: the BookingTravelerRef, Code and Age
attributes of line 385-389. -/
structure PTypeXml where
  bookingTravelerRef : String
  code : String
  age : Option String
deriving DecidableEq, Repr

/-- One air:AirPricingInfo node of an air:AirPricingSolution as touched by
airPriceRspPricingSolutionXML: the Key attribute read by the find of line
382 and the air:PassengerType list the loop rebuilds; the remaining nodes
are carried over untouched by the object spread of line 367. -/
structure PricingInfoXml where
  key : String
  passengerType : List PTypeXml
deriving DecidableEq, Repr

/-- One air:AirPricingSolution node: the TotalPrice attribute the sort of
line 351 compares, the air:AirSegmentRef node deleted at line 359, the
air:AirSegment node overwritten at line 361 and the air:AirPricingInfo list
rewritten at line 393 (segments are carried as opaque values). -/
structure PricingSolutionXml where
  totalPrice : String
  airSegmentRef : Option (List String)
  airSegment : Option (List String)
  airPricingInfo : Option (List PricingInfoXml)
deriving DecidableEq, Repr

/-- The part of the air:AirPriceRsp document airPriceRspPricingSolutionXML
reaches through the caller's reference obj: the itinerary segment list of
line 344 (reading it from an absent node yields undefined, assigned as such
at line 361 and modelled as none) and the air:AirPricingSolution list of
line 346 (when that node is absent, reading .length of undefined at line
348 is an uncontrolled TypeError). -/
structure PriceRspDoc where
  itinerarySegments : Option (List String)
  pricingSolutions : Option (List PricingSolutionXml)
deriving DecidableEq, Repr

/-- One entry of this.env.passengers as the loop of line 370 reads it. -/
structure PassengerEnv where
  ageCategory : String
  age : Option String
deriving DecidableEq, Repr

/-- The comparator of line 351, (a, b) => parseFloat(a.$.TotalPrice.slice(3))
- parseFloat(b.$.TotalPrice.slice(3)), as the keep-order test of the sort: a
stays before b when the difference is not positive.  pf stands for
parseFloat, a numeric valuation of the price text after the three currency
letters are sliced off. -/
def psLe (pf : String → Int) (a b : PricingSolutionXml) : Bool :=
  decide (pf (a.totalPrice.drop 3) ≤ pf (b.totalPrice.drop 3))

/-- Lines 347-356: pricingSolutions.sort(...) runs, in place, only when the
list holds more than one entry. -/
def jsSortSols (pf : String → Int) (sols : List PricingSolutionXml) :
    List PricingSolutionXml :=
  if 1 < sols.length then sortByLe (psLe pf) sols else sols

/-- The air:AirPricingSolution list behind priceResult (lines 345-346); an
absent node makes the .length read of line 348 an uncontrolled TypeError. -/
def solsOf (obj : PriceRspDoc) : Except AirFail (List PricingSolutionXml) :=
  match obj.pricingSolutions with
  | none => .error .typeError
  | some sols => .ok sols

/-- The destructuring [pricingSolution] = pricingSolutions of lines 351-355
with the following mutations of lines 359-361: on an empty list the selected
solution is undefined and the delete of line 359 is an uncontrolled
TypeError. -/
def psHead (sols : List PricingSolutionXml) :
    Except AirFail (PricingSolutionXml × List PricingSolutionXml) :=
  match sols with
  | [] => .error .typeError
  | s :: rest => .ok (s, rest)

/-- pricingSolution[air:AirPricingInfo] as read by the map of line 366; an
absent node makes that map an uncontrolled TypeError. -/
def piOf (s : PricingSolutionXml) : Except AirFail (List PricingInfoXml) :=
  match s.airPricingInfo with
  | none => .error .typeError
  | some infos => .ok infos

/-- Success of pricingInfos.find(info => info.$.Key === reservationKey) at
line 382. -/
def hasKeyPI : List PricingInfoXml → String → Bool
  | [], _ => false
  | i :: rest, k => i.key == k || hasKeyPI rest k

/-- The passenger-type entry pushed at line 384 for passenger number idx:
BookingTravelerRef P_idx, Code the age category, Age carried over. -/
def mkPTX (idx : Nat) (p : PassengerEnv) : PTypeXml :=
  { bookingTravelerRef := "P_" ++ toString idx, code := p.ageCategory, age := p.age }

/-- The push of line 384 through the find of line 382: the first pricing
info whose Key matches receives the new entry at the end of its
passenger-type list. -/
def pushPT : List PricingInfoXml → String → PTypeXml → List PricingInfoXml
  | [], _, _ => []
  | i :: rest, k, pt =>
    if i.key == k then { i with passengerType := i.passengerType ++ [pt] } :: rest
    else i :: pushPT rest k pt

/-- Object.keys(passengersPerReservations).find of lines 372-380: scan the
reservation table in key order for an entry with a positive count under the
age category, decrement that count there (the find predicate mutates the
table), and return the key together with the updated table; an absent
category reads as undefined, which is not greater than 0. -/
def findResKey : List (String × List (String × Nat)) → String →
    Option (String × List (String × List (String × Nat)))
  | [], _ => none
  | (k, item) :: rest, cat =>
    if 0 < (item.lookup cat).getD 0 then
      some (k, (k, setKey item cat ((item.lookup cat).getD 0 - 1)) :: rest)
    else
      match findResKey rest cat with
      | none => none
      | some (k2, rest2) => some (k2, (k, item) :: rest2)

/-- The forEach of lines 370-391 over this.env.passengers: each passenger
draws a reservation key from the table (findResKey) and pushes a
passenger-type entry into the first pricing info carrying that key
(pushPT).  An exhausted table leaves reservationKey undefined so the find
over the infos fails (a string Key is never strictly equal to undefined),
and either way a failed find makes the push of line 384 an uncontrolled
TypeError. -/
def distLoop : List PassengerEnv → Nat → List (String × List (String × Nat)) →
    List PricingInfoXml → Except AirFail (List PricingInfoXml)
  | [], _, _, infos => .ok infos
  | p :: rest, idx, ppr, infos =>
    match findResKey ppr p.ageCategory with
    | none => .error .typeError
    | some (k, ppr2) =>
      if hasKeyPI infos k then
        distLoop rest (idx + 1) ppr2 (pushPT infos k (mkPTX idx p))
      else .error .typeError

/-- airPriceRspPricingSolutionXML (AirParser.js 339-427) as the transformer
of the caller's document obj.  Lines 341-342 and 420 operate on objCopy, a
deep copy (JSON.parse of JSON.stringify), through
airPriceRspPassengersPerReservation and this.mergeLeafRecursive — a service
helper not under src — and therefore cannot touch obj; ppr stands for the
passengers-per-reservation table those lines compute from the copy, and pf
for parseFloat.  On obj itself the function sorts the pricing-solution list
in place when it holds more than one entry (line 351), deletes the
air-segment-ref node of the selected head solution (line 359), overwrites
its air-segment node with the itinerary segments (line 361), rebuilds its
pricing infos with emptied then redistributed passenger types (lines
366-391) and writes them back (line 393).  The returned XML text is built
by the external xml2js from reads only, so the result modelled here is the
final state of obj; a TypeError inside the loop aborts the call (the
mutations already made persist in JavaScript but a failing run reports only
the error here). -/
def airPriceRspPricingSolutionXML (pf : String → Int)
    (ppr : List (String × List (String × Nat))) (passengers : List PassengerEnv)
    (obj : PriceRspDoc) : Except AirFail PriceRspDoc := do
  let sols ← solsOf obj
  let so ← psHead (jsSortSols pf sols)
  let infos ← piOf so.1
  let infos2 ← distLoop passengers 0 ppr
    (infos.map (fun i => { i with passengerType := [] }))
  pure { obj with pricingSolutions := some ({ so.1 with
    airSegmentRef := none
    airSegment := obj.itinerarySegments
    airPricingInfo := some infos2 } :: so.2) }

/-- A concrete parseFloat stand-in for the mutation witness: the length of
the price text, enough to order the two prices of docC7. -/
def pfC7 : String → Int := fun s => (s.length : Int)

/-- One adult passenger in the request environment. -/
def passengersC7 : List PassengerEnv := [{ ageCategory := "ADT", age := some "30" }]

/-- A passengers-per-reservation table with one adult seat on reservation
PI1. -/
def pprC7 : List (String × List (String × Nat)) := [("PI1", [("ADT", 1)])]

/-- The pricing infos of both witness solutions: one info keyed PI1 with a
stale passenger type the function wipes. -/
def infosC7 : List PricingInfoXml :=
  [{ key := "PI1", passengerType := [{ bookingTravelerRef := "X", code := "ADT", age := none }] }]

/-- The dearer witness solution. -/
def solC7a : PricingSolutionXml :=
  { totalPrice := "UAH200.00", airSegmentRef := some ["S1"], airSegment := none
    airPricingInfo := some infosC7 }

/-- The cheaper witness solution (under pfC7 the shorter price text). -/
def solC7b : PricingSolutionXml :=
  { totalPrice := "UAH50.00", airSegmentRef := some ["S1"], airSegment := none
    airPricingInfo := some infosC7 }

/-- The witness price response: one itinerary segment and the two solutions,
dearer first. -/
def docC7 : PriceRspDoc :=
  { itinerarySegments := some ["SEG1"], pricingSolutions := some [solC7a, solC7b] }

/-- The passenger-type entry the run writes for the single adult. -/
def ptC7out : PTypeXml :=
  { bookingTravelerRef := "P_0", code := "ADT", age := some "30" }

/-- The rewritten cheaper solution as it ends up at the front. -/
def solC7bOut : PricingSolutionXml :=
  { totalPrice := "UAH50.00", airSegmentRef := none, airSegment := some ["SEG1"]
    airPricingInfo := some [{ key := "PI1", passengerType := [ptC7out] }] }

/-- The final state of docC7: the cheaper solution moved to the front and
rewritten (segment ref gone, segments copied in, passenger types
redistributed), the dearer one carried over untouched. -/
def docC7out : PriceRspDoc :=
  { itinerarySegments := some ["SEG1"], pricingSolutions := some [solC7bOut, solC7a] }

/- ------------------------------------------------------------------ -/
/- Basic lemmas on the text and sorting primitives                     -/
/- ------------------------------------------------------------------ -/

theorem charListLe_refl (l : List Char) : charListLe l l = true := by
  induction l with
  | nil => rfl
  | cons a as ih => simp [charListLe, ih]

theorem strLeB_refl (s : String) : strLeB s s = true := charListLe_refl s.data

theorem charListLe_total (a b : List Char) : charListLe a b = true ∨ charListLe b a = true := by
  induction a generalizing b with
  | nil => left; rfl
  | cons x xs ih =>
    cases b with
    | nil => right; rfl
    | cons y ys =>
      rcases Nat.lt_trichotomy x.toNat y.toNat with h | h | h
      · left; simp [charListLe, h]
      · rcases ih ys with h2 | h2
        · left; simp [charListLe, h, h2]
        · right; simp [charListLe, h, h2]
      · right; simp [charListLe, h]

theorem strLeB_total (a b : String) : strLeB a b = true ∨ strLeB b a = true :=
  charListLe_total a.data b.data

theorem charListLe_trans (a b c : List Char) (h1 : charListLe a b = true)
    (h2 : charListLe b c = true) : charListLe a c = true := by
  induction a generalizing b c with
  | nil => rfl
  | cons x xs ih =>
    cases b with
    | nil => simp [charListLe] at h1
    | cons y ys =>
      cases c with
      | nil => simp [charListLe] at h2
      | cons z zs =>
        simp only [charListLe] at h1 h2 ⊢
        rcases Nat.lt_trichotomy x.toNat y.toNat with hxy | hxy | hxy
        · rcases Nat.lt_trichotomy y.toNat z.toNat with hyz | hyz | hyz
          · simp [Nat.lt_trans hxy hyz]
          · have hc : z = y := Char.eq_of_val_eq (UInt32.toNat.inj hyz.symm)
            subst hc
            simp [hxy]
          · simp [hyz, Nat.not_lt.mpr (Nat.le_of_lt hyz)] at h2
        · have hb : y = x := Char.eq_of_val_eq (UInt32.toNat.inj hxy.symm)
          subst hb
          simp only [Nat.lt_irrefl, if_false] at h1
          rcases Nat.lt_trichotomy y.toNat z.toNat with hyz | hyz | hyz
          · simp [hyz]
          · have hc : z = y := Char.eq_of_val_eq (UInt32.toNat.inj hyz.symm)
            subst hc
            simp only [Nat.lt_irrefl, if_false] at h2 ⊢
            exact ih ys zs h1 h2
          · simp [hyz, Nat.not_lt.mpr (Nat.le_of_lt hyz)] at h2
        · simp [hxy, Nat.not_lt.mpr (Nat.le_of_lt hxy)] at h1

theorem strLeB_trans (a b c : String) (h1 : strLeB a b = true) (h2 : strLeB b c = true) :
    strLeB a c = true :=
  charListLe_trans a.data b.data c.data h1 h2

theorem charListLe_antisymm (a b : List Char) (h1 : charListLe a b = true)
    (h2 : charListLe b a = true) : a = b := by
  induction a generalizing b with
  | nil =>
    cases b with
    | nil => rfl
    | cons y ys => simp [charListLe] at h2
  | cons x xs ih =>
    cases b with
    | nil => simp [charListLe] at h1
    | cons y ys =>
      simp only [charListLe] at h1 h2
      rcases Nat.lt_trichotomy x.toNat y.toNat with hxy | hxy | hxy
      · simp [hxy, Nat.not_lt.mpr (Nat.le_of_lt hxy)] at h2
      · have hb : x = y := Char.eq_of_val_eq (UInt32.toNat.inj hxy)
        subst hb
        simp only [Nat.lt_irrefl, if_false] at h1 h2
        rw [ih ys h1 h2]
      · simp [hxy, Nat.not_lt.mpr (Nat.le_of_lt hxy)] at h1

theorem strLeB_antisymm (a b : String) (h1 : strLeB a b = true) (h2 : strLeB b a = true) :
    a = b := by
  cases a with
  | mk la =>
    cases b with
    | mk lb => exact congrArg String.mk (charListLe_antisymm la lb h1 h2)

theorem insertLe_perm (le : α → α → Bool) (x : α) (l : List α) :
    (insertLe le x l).Perm (x :: l) := by
  induction l with
  | nil => exact List.Perm.refl _
  | cons y ys ih =>
    by_cases h : le x y = true
    · simp [insertLe, h]
    · simp only [insertLe, h, if_false]
      exact (List.Perm.cons y ih).trans (List.Perm.swap x y ys)

theorem sortByLe_perm (le : α → α → Bool) (l : List α) : (sortByLe le l).Perm l := by
  induction l with
  | nil => exact List.Perm.refl _
  | cons x xs ih =>
    exact (insertLe_perm le x (sortByLe le xs)).trans (List.Perm.cons x ih)

theorem insertLe_pairwise (le : α → α → Bool)
    (htr : ∀ a b c, le a b = true → le b c = true → le a c = true)
    (hto : ∀ a b, le a b = true ∨ le b a = true)
    (x : α) (l : List α) (h : l.Pairwise (fun a b => le a b = true)) :
    (insertLe le x l).Pairwise (fun a b => le a b = true) := by
  induction l with
  | nil => simp [insertLe]
  | cons y ys ih =>
    rcases List.pairwise_cons.mp h with ⟨hy, hys⟩
    by_cases hxy : le x y = true
    · simp only [insertLe, hxy, if_true]
      refine List.pairwise_cons.mpr ⟨?_, h⟩
      intro a ha
      rcases List.mem_cons.mp ha with rfl | ha
      · exact hxy
      · exact htr x y a hxy (hy a ha)
    · simp only [insertLe, hxy, if_false]
      refine List.pairwise_cons.mpr ⟨?_, ih hys⟩
      intro a ha
      have ha2 := (insertLe_perm le x ys).mem_iff.mp ha
      rcases List.mem_cons.mp ha2 with rfl | ha2
      · rcases hto a y with h2 | h2
        · exact absurd h2 hxy
        · exact h2
      · exact hy a ha2

theorem sortByLe_pairwise (le : α → α → Bool)
    (htr : ∀ a b c, le a b = true → le b c = true → le a c = true)
    (hto : ∀ a b, le a b = true ∨ le b a = true)
    (l : List α) : (sortByLe le l).Pairwise (fun a b => le a b = true) := by
  induction l with
  | nil => simp [sortByLe]
  | cons x xs ih => exact insertLe_pairwise le htr hto x (sortByLe le xs) ih


/- ------------------------------------------------------------------ -/
/- Histogram lemmas                                                    -/
/- ------------------------------------------------------------------ -/

theorem lookup_setKey_self (a : List (String × Nat)) (k : String) (v : Nat) :
    List.lookup k (setKey a k v) = some v := by
  induction a with
  | nil => simp [setKey, List.lookup]
  | cons kv rest ih =>
    rcases kv with ⟨k2, v2⟩
    by_cases h : k2 = k
    · subst h
      simp [setKey, List.lookup]
    · have hb : (k == k2) = false := beq_eq_false_iff_ne.mpr (Ne.symm h)
      simp [setKey, h, List.lookup, hb, ih]

theorem lookup_setKey_ne (a : List (String × Nat)) (k c : String) (v : Nat) (h : c ≠ k) :
    List.lookup c (setKey a k v) = List.lookup c a := by
  induction a with
  | nil =>
    have hb : (c == k) = false := beq_eq_false_iff_ne.mpr h
    simp [setKey, List.lookup, hb]
  | cons kv rest ih =>
    rcases kv with ⟨k2, v2⟩
    by_cases h2 : k2 = k
    · subst h2
      have hb : (c == k2) = false := beq_eq_false_iff_ne.mpr h
      simp [setKey, List.lookup, hb]
    · simp only [setKey, h2, if_false]
      by_cases h3 : c = k2
      · subst h3
        simp [List.lookup]
      · have hb : (c == k2) = false := beq_eq_false_iff_ne.mpr h3
        simp [List.lookup, hb, ih]

theorem lookup_bumpKey_self (a : List (String × Nat)) (k : String) (n : Nat)
    (h : List.lookup k a = some n) : List.lookup k (bumpKey a k) = some (n + 1) := by
  induction a with
  | nil => simp [List.lookup] at h
  | cons kv rest ih =>
    rcases kv with ⟨k2, v2⟩
    by_cases h2 : k2 = k
    · subst h2
      have hv : v2 = n := by simpa [List.lookup] using h
      subst hv
      simp [bumpKey, List.lookup]
    · have hb : (k == k2) = false := beq_eq_false_iff_ne.mpr (Ne.symm h2)
      simp only [List.lookup, hb] at h
      simp [bumpKey, h2, List.lookup, hb, ih h]

theorem lookup_bumpKey_ne (a : List (String × Nat)) (k c : String) (h : c ≠ k) :
    List.lookup c (bumpKey a k) = List.lookup c a := by
  induction a with
  | nil => simp [bumpKey]
  | cons kv rest ih =>
    rcases kv with ⟨k2, v2⟩
    by_cases h2 : k2 = k
    · subst h2
      have hb : (c == k2) = false := beq_eq_false_iff_ne.mpr h
      simp [bumpKey, List.lookup, hb]
    · simp only [bumpKey, h2, if_false]
      by_cases h3 : c = k2
      · subst h3
        simp [List.lookup]
      · have hb : (c == k2) = false := beq_eq_false_iff_ne.mpr h3
        simp [List.lookup, hb, ih]

/-- Invariant of the histogram counting loop on a sorted remainder: the key
just written counts its remaining run on top of its stored value, a key still
ahead gets its full count, and any other key keeps its stored binding. -/
theorem histLoop_lookup :
    ∀ (l : List String) (p : String) (a : List (String × Nat)) (n : Nat),
      (p :: l).Pairwise (fun x y => strLeB x y = true) →
      List.lookup p a = some n →
      (∀ c, strLeB c p = false → List.lookup c a = none) →
      ∀ c, List.lookup c (histLoop (some p) a l) =
        if c = p then some (n + l.count p)
        else if 0 < l.count c then some (l.count c)
        else List.lookup c a := by
  intro l
  induction l with
  | nil =>
    intro p a n hsort hp hnone c
    by_cases h : c = p
    · subst h
      simp [histLoop, hp]
    · simp [histLoop, h]
  | cons x xs ih =>
    intro p a n hsort hp hnone c
    have hpx : strLeB p x = true :=
      (List.pairwise_cons.mp hsort).1 x (List.mem_cons_self x xs)
    have hsort2 : (x :: xs).Pairwise (fun u v => strLeB u v = true) :=
      (List.pairwise_cons.mp hsort).2
    by_cases hxp : x = p
    · subst hxp
      rw [show histLoop (some x) a (x :: xs) = histLoop (some x) (bumpKey a x) xs from by
        simp [histLoop]]
      have hnone2 : ∀ c2, strLeB c2 x = false → List.lookup c2 (bumpKey a x) = none := by
        intro c2 hc2
        have hne : c2 ≠ x := by
          intro hh
          subst hh
          rw [strLeB_refl c2] at hc2
          exact Bool.noConfusion hc2
        rw [lookup_bumpKey_ne a x c2 hne]
        exact hnone c2 hc2
      rw [ih x (bumpKey a x) (n + 1) hsort2 (lookup_bumpKey_self a x n hp) hnone2 c]
      by_cases h : c = x
      · rw [if_pos h, if_pos h]
        have hcc : (x :: xs).count x = xs.count x + 1 := by simp [List.count_cons]
        rw [hcc]
        congr 1
        omega
      · have hbx : (x == c) = false := beq_eq_false_iff_ne.mpr (fun hh => h hh.symm)
        have hcc : (x :: xs).count c = xs.count c := by simp [List.count_cons, hbx]
        rw [if_neg h, if_neg h, hcc]
        by_cases h2 : 0 < xs.count c
        · rw [if_pos h2, if_pos h2]
        · rw [if_neg h2, if_neg h2, lookup_bumpKey_ne a x c h]
    · have hxpb : strLeB x p = false := by
        cases h4 : strLeB x p
        · rfl
        · exact absurd (strLeB_antisymm x p h4 hpx) hxp
      have hpnot : p ∉ xs := by
        intro hmem
        have hxle := (List.pairwise_cons.mp hsort2).1 p hmem
        rw [hxpb] at hxle
        exact Bool.noConfusion hxle
      have hpcnt : xs.count p = 0 := List.count_eq_zero.mpr hpnot
      rw [show histLoop (some p) a (x :: xs) = histLoop (some x) (setKey a x 1) xs from by
        simp [histLoop, hxp]]
      have hnone2 : ∀ c2, strLeB c2 x = false → List.lookup c2 (setKey a x 1) = none := by
        intro c2 hc2
        have hne : c2 ≠ x := by
          intro hh
          subst hh
          rw [strLeB_refl c2] at hc2
          exact Bool.noConfusion hc2
        rw [lookup_setKey_ne a x c2 1 hne]
        refine hnone c2 ?_
        cases h4 : strLeB c2 p
        · rfl
        · exact absurd (strLeB_trans c2 p x h4 hpx) (by simp [hc2])
      rw [ih x (setKey a x 1) 1 hsort2 (lookup_setKey_self a x 1) hnone2 c]
      by_cases h : c = p
      · have hcx : c ≠ x := by
          rw [h]
          exact fun hh => hxp hh.symm
        have hbp : (x == p) = false := beq_eq_false_iff_ne.mpr hxp
        have hcc : (x :: xs).count p = 0 := by simp [List.count_cons, hbp, hpcnt]
        have hxc0 : xs.count c = 0 := by
          rw [h]
          exact hpcnt
        rw [if_neg hcx, if_neg (by omega : ¬ 0 < xs.count c), lookup_setKey_ne a x c 1 hcx,
          if_pos h, hcc, Nat.add_zero, h, hp]
      · by_cases h2 : c = x
        · rw [if_pos h2, if_neg h]
          have hb2 : (x == c) = true := beq_iff_eq.mpr h2.symm
          have hcc : (x :: xs).count c = xs.count c + 1 := by simp [List.count_cons, hb2]
          rw [hcc, if_pos (by omega), h2]
          congr 1
          omega
        · have hbx : (x == c) = false := beq_eq_false_iff_ne.mpr (fun hh => h2 hh.symm)
          have hcc : (x :: xs).count c = xs.count c := by simp [List.count_cons, hbx]
          rw [if_neg h2, if_neg h, hcc]
          by_cases h3 : 0 < xs.count c
          · rw [if_pos h3, if_pos h3]
          · rw [if_neg h3, if_neg h3, lookup_setKey_ne a x c 1 h2]

/-- Lookup characterization of the full histogram of a code list: each code
maps to its number of occurrences, absent codes are absent. -/
theorem histOf_lookup (l : List String) (c : String) :
    List.lookup c (histOf l) = if l.count c = 0 then none else some (l.count c) := by
  have hperm : (jsSortStrings l).Perm l := sortByLe_perm strLeB l
  have hsorted : (jsSortStrings l).Pairwise (fun a b => strLeB a b = true) :=
    sortByLe_pairwise strLeB strLeB_trans strLeB_total l
  have hcnt : (jsSortStrings l).count c = l.count c := hperm.count_eq c
  unfold histOf
  cases hs : jsSortStrings l with
  | nil =>
    have h0 : l.count c = 0 := by
      rw [← hcnt, hs]
      simp
    simp [histLoop, h0, List.lookup]
  | cons x xs =>
    rw [show histLoop none [] (x :: xs) = histLoop (some x) (setKey [] x 1) xs from by
      simp [histLoop]]
    have hsorted2 : (x :: xs).Pairwise (fun a b => strLeB a b = true) := hs ▸ hsorted
    have hnone2 : ∀ c2, strLeB c2 x = false → List.lookup c2 (setKey [] x 1) = none := by
      intro c2 hc2
      have hne : c2 ≠ x := by
        intro hh
        subst hh
        rw [strLeB_refl c2] at hc2
        exact Bool.noConfusion hc2
      rw [lookup_setKey_ne [] x c2 1 hne]
      rfl
    rw [histLoop_lookup xs x (setKey [] x 1) 1 hsorted2 (lookup_setKey_self [] x 1) hnone2 c]
    have hlc : l.count c = (x :: xs).count c := by rw [← hcnt, hs]
    by_cases h : c = x
    · subst h
      have hcc : (c :: xs).count c = xs.count c + 1 := by simp [List.count_cons]
      rw [if_pos rfl, hlc, hcc, if_neg (by omega)]
      congr 1
      omega
    · have hb : (x == c) = false := beq_eq_false_iff_ne.mpr (fun hh => h hh.symm)
      have hcc : (x :: xs).count c = xs.count c := by simp [List.count_cons, hb]
      rw [if_neg h, hlc, hcc]
      by_cases h3 : 0 < xs.count c
      · rw [if_pos h3, if_neg (by omega)]
      · have h0 : xs.count c = 0 := by omega
        rw [if_neg h3, lookup_setKey_ne [] x c 1 h, if_pos h0]
        rfl

/- ------------------------------------------------------------------ -/
/- Claim C2                                                            -/
/- ------------------------------------------------------------------ -/

/-- C2: countHistogram sorts the list of passenger-type codes (or the Code
values of a list of objects) and counts runs of equal adjacent values into a
code-to-count mapping; the input [A, B, A, A, B] yields the mapping A to 3
and B to 2, and a non-array input fails with the HistogramTypeInvalid
parsing error.  The general conjunct characterizes the mapping: every code
maps to its number of occurrences. -/
theorem claim_C2_countHistogram :
    countHistogram (.codes ["A", "B", "A", "A", "B"])
      = .ok ([("A", 3), ("B", 2)], .codes ["A", "A", "A", "B", "B"])
    ∧ countHistogram .notArray = .error .histogramTypeInvalid
    ∧ (∀ l, countHistogram (.codes l) = .ok (histOf l, .codes (jsSortStrings l)))
    ∧ (∀ l, countHistogram (.objs l) = .ok (histOf l, .objs l))
    ∧ (∀ l c, List.lookup c (histOf l) =
        if l.count c = 0 then none else some (l.count c)) := by
  refine ⟨rfl, rfl, fun l => rfl, fun l => rfl, fun l c => histOf_lookup l c⟩

/- ------------------------------------------------------------------ -/
/- Claim C7                                                            -/
/- ------------------------------------------------------------------ -/

/-- C7 counterexample: normalization is not free of side effects on its
input.  countHistogram applied to the plain code list [B, A] returns with
the caller's array sorted in place to [A, B], which differs from the input
list. -/
theorem claim_C7_counterexample :
    countHistogram (.codes ["B", "A"]) = .ok ([("A", 1), ("B", 1)], .codes ["A", "B"])
    ∧ (HistInput.codes ["A", "B"] ≠ HistInput.codes ["B", "A"]) :=
  ⟨rfl, by decide⟩

/- ------------------------------------------------------------------ -/
/- Claim C9                                                            -/
/- ------------------------------------------------------------------ -/

/-- Counts of any run of the issue loop stay within the retry budget that is
still available: at most one extra ticket call per unused retry kind, at
most one extra fetch and one FOID application when the FOID retry is
unused. -/
theorem issueLoop_counts (script : List TOutcome) :
    ∀ (fU bU : Bool) (t f d : Nat),
      (countsOf (issueLoop script fU bU t f d)).1 ≤ t + 1 + cond fU 0 1 + cond bU 0 1
      ∧ (countsOf (issueLoop script fU bU t f d)).2.1 ≤ f + cond fU 0 1
      ∧ (countsOf (issueLoop script fU bU t f d)).2.2 ≤ d + cond fU 0 1 := by
  induction script with
  | nil =>
    intro fU bU t f d
    cases fU <;> cases bU <;>
      simp only [issueLoop, countsOf, cond_true, cond_false] <;>
      exact ⟨by omega, by omega, by omega⟩
  | cons r rest ih =>
    intro fU bU t f d
    cases r with
    | ok =>
      cases fU <;> cases bU <;>
        simp only [issueLoop, countsOf, cond_true, cond_false] <;>
        exact ⟨by omega, by omega, by omega⟩
    | foidRequired =>
      cases fU with
      | true =>
        have hred : issueLoop (TOutcome.foidRequired :: rest) true bU t f d
            = .failed .foidRequired (t + 1) f d := rfl
        rw [hred]
        cases bU <;> simp only [countsOf, cond_true, cond_false] <;>
          exact ⟨by omega, by omega, by omega⟩
      | false =>
        have hred : issueLoop (TOutcome.foidRequired :: rest) false bU t f d
            = issueLoop rest true bU (t + 1) (f + 1) (d + 1) := by
          simp [issueLoop]
        rw [hred]
        have h := ih true bU (t + 1) (f + 1) (d + 1)
        simp only [cond_true] at h
        cases bU <;> simp only [cond_true, cond_false] <;>
          exact ⟨by have := h.1; simp only [cond_true, cond_false] at this; omega,
            by have := h.2.1; omega, by have := h.2.2; omega⟩
    | pnrBusy =>
      cases bU with
      | true =>
        have hred : issueLoop (TOutcome.pnrBusy :: rest) fU true t f d
            = .failed .pnrBusy (t + 1) f d := rfl
        rw [hred]
        cases fU <;> simp only [countsOf, cond_true, cond_false] <;>
          exact ⟨by omega, by omega, by omega⟩
      | false =>
        have hred : issueLoop (TOutcome.pnrBusy :: rest) fU false t f d
            = issueLoop rest fU true (t + 1) f d := by
          simp [issueLoop]
        rw [hred]
        have h := ih fU true (t + 1) f d
        simp only [cond_true] at h
        cases fU <;> simp only [cond_true, cond_false] <;>
          exact ⟨by have := h.1; simp only [cond_true, cond_false] at this; omega,
            by have := h.2.1; simp only [cond_true, cond_false] at this; omega,
            by have := h.2.2; simp only [cond_true, cond_false] at this; omega⟩
    | otherFailure =>
      cases fU <;> cases bU <;>
        simp only [issueLoop, countsOf, cond_true, cond_false] <;>
        exact ⟨by omega, by omega, by omega⟩

/-- C9: on the script rejecting with PNR-busy, then FOID-required, then
succeeding, the ticketing machine completes with exactly three ticket-issue
calls, two booking fetches and one FOID application; every invocation stays
within one retry per failure kind (so at most three ticket calls, two
fetches and one FOID overall), and any other failure or a repeated
retryable failure propagates without a further ticket call. -/
theorem claim_C9_ticketing_machine :
    ticketMachine [.pnrBusy, .foidRequired, .ok] = .done 3 2 1
    ∧ (∀ script : List TOutcome,
        (countsOf (ticketMachine script)).1 ≤ 3
        ∧ (countsOf (ticketMachine script)).2.1 ≤ 2
        ∧ (countsOf (ticketMachine script)).2.2 ≤ 1)
    ∧ (∀ rest : List TOutcome,
        ticketMachine (.otherFailure :: rest) = .failed .otherFailure 1 1 0)
    ∧ (∀ rest : List TOutcome,
        ticketMachine (.pnrBusy :: .pnrBusy :: rest) = .failed .pnrBusy 2 1 0)
    ∧ (∀ rest : List TOutcome,
        ticketMachine (.foidRequired :: .foidRequired :: rest)
          = .failed .foidRequired 2 2 1) := by
  refine ⟨rfl, ?_, fun rest => rfl, fun rest => rfl, fun rest => rfl⟩
  intro script
  have h := issueLoop_counts script false false 0 1 0
  simp only [cond_false] at h
  unfold ticketMachine
  exact ⟨by have := h.1; omega, by have := h.2.1; omega, by have := h.2.2; omega⟩

/- ------------------------------------------------------------------ -/
/- Claim C4                                                            -/
/- ------------------------------------------------------------------ -/

/-- C4: for a fault document whose structured error code is 3000, the error
handler throws TicketInfoIncomplete exactly when the faultstring equals the
expected phrase, otherwise SegmentWaitlisted exactly when the air segment
error messages contain the waitlisted-segment phrase, otherwise
SegmentBookingFailed. -/
theorem claim_C4_code3000_dispatch (pccOf : Option String → Option String) (rsp : RawDoc)
    (ei : UErrorInfo) (h1 : errorInfoOf rsp = some ei) (h2 : ei.code = some "3000") :
    AirErrorHandler pccOf rsp =
      if rsp.faultstring = some ticketIncompletePhrase then .ticketInfoIncomplete
      else if (some waitlistPhrase) ∈ (ei.airSegmentErrors.getD []).map (fun e => e.errorMessage)
        then .segmentWaitlisted
      else .segmentBookingFailed := by
  simp only [AirErrorHandler, h1, h2]
  rw [if_neg (by decide), if_neg (by decide), if_neg (by decide), if_neg (by decide),
    if_neg (by decide), if_neg (by decide), if_neg (by decide), if_pos trivial]

/-- C4 witness: a concrete code-3000 fault whose segment errors carry the
waitlisted-segment phrase is classified SegmentWaitlisted. -/
theorem claim_C4_witness :
    AirErrorHandler (fun _ => none) docC4 = .segmentWaitlisted := by
  rw [claim_C4_code3000_dispatch (fun _ => none) docC4 eiC4 rfl rfl]
  decide

/- ------------------------------------------------------------------ -/
/- Claim C5                                                            -/
/- ------------------------------------------------------------------ -/

/-- C5: a ticket-retrieval fault with structured code 3000 whose faultstring
matches has-no-tickets is returned as a non-error result by the
ticket-retrieval error handler, and the ticket-list parser yields the empty
list for such a response. -/
theorem claim_C5_has_no_tickets (pccOf : Option String → Option String) (rsp : RawDoc)
    (ei : UErrorInfo) (h1 : errorInfoOf rsp = some ei) (h2 : ei.code = some "3000")
    (h3 : rsp.faultcode.isSome = true) (h4 : rsp.faultstring.isSome = true)
    (h5 : csContains (rsp.faultstring.getD "") "has no tickets" = true) :
    airGetTicketsErrorHandler pccOf rsp = .ok rsp
    ∧ airGetTickets pccOf rsp = .ok [] := by
  have hnt : responseHasNoTickets rsp = true := by
    unfold responseHasNoTickets
    rw [h3, h4, h5]
    rfl
  constructor
  · simp only [airGetTicketsErrorHandler, h1]
    rw [if_pos ⟨h2, hnt⟩]
  · unfold airGetTickets
    rw [if_pos hnt]

/-- C5 witness: a concrete code-3000 has-no-tickets fault passes through the
handler unclassified and parses to the empty ticket list. -/
theorem claim_C5_witness :
    airGetTicketsErrorHandler (fun _ => none) docC5 = .ok docC5
    ∧ airGetTickets (fun _ => none) docC5 = .ok [] :=
  claim_C5_has_no_tickets (fun _ => none) docC5 eiC5 rfl rfl rfl rfl (by decide)

/- ------------------------------------------------------------------ -/
/- Claim C3                                                            -/
/- ------------------------------------------------------------------ -/

/-- C3 counterexample: a document that does carry a response-message list,
whose first message resolves to the empty string, matches none of the
free-text patterns, so the claimed chain ends in the generic vendor-service
error; the code instead throws the unhandled error, because the falsy check
on the resolved message also catches the empty string. -/
theorem claim_C3_counterexample :
    getUAPIErrorMessage docC3empty = some ""
    ∧ processUAPIError (fun _ => none) docC3empty = .unhandledError
    ∧ processUAPIError (fun _ => none) docC3empty ≠ .uapiServiceError (some "")
    ∧ ciContains "" "NO AGENCY AGREEMENT" = false
    ∧ ciContains "" "UNABLE TO RETRIEVE" = false
    ∧ ciContains "" "HOST ERROR DURING TICKET RETRIEVE" = false
    ∧ ciContains "" "ACCESSED BY ANOTHER TRANSACTION" = false :=
  ⟨rfl, rfl, by decide, rfl, rfl, rfl, rfl⟩

/-- C3 amended: with a structured code absent or unrecognized the handler
falls back to processUAPIError, which classifies a non-empty resolved fault
message by the free-text patterns (no-agency-agreement carrying the
extracted PCC first, then unable-to-retrieve, then
host-error-during-ticket-retrieve, then accessed-by-another-transaction,
else the generic vendor-service error carrying the uppercased fault text);
and an absent or empty resolved message, in particular a document with no
fault string, response messages or document-failure block, yields the
unhandled error wrapping a generic runtime error. -/
theorem claim_C3_amended_fallback_chain (pccOf : Option String → Option String) (rsp : RawDoc) :
    (errorInfoOf rsp = none → AirErrorHandler pccOf rsp = processUAPIError pccOf rsp)
    ∧ (∀ ei, errorInfoOf rsp = some ei → (∀ c ∈ recognizedCodes, ¬ ei.code = some c) →
        AirErrorHandler pccOf rsp = processUAPIError pccOf rsp)
    ∧ (∀ m, getUAPIErrorMessage rsp = some m → m ≠ "" →
        processUAPIError pccOf rsp =
          if ciContains m "NO AGENCY AGREEMENT" then .noAgreement (pccOf (some m))
          else if ciContains m "UNABLE TO RETRIEVE" then .unableToRetrieve
          else if ciContains m "HOST ERROR DURING TICKET RETRIEVE" then .unableToRetrieveTicket
          else if ciContains m "ACCESSED BY ANOTHER TRANSACTION" then
            .accessedByAnotherTransaction
          else .uapiServiceError (some (upStr m)))
    ∧ (rsp.faultstring = none → rsp.responseMessages = [] → rsp.documentFailureInfo = none →
        processUAPIError pccOf rsp = .unhandledError)
    ∧ ((getUAPIErrorMessage rsp = none ∨ getUAPIErrorMessage rsp = some "") →
        processUAPIError pccOf rsp = .unhandledError) := by
  refine ⟨?_, ?_, ?_, ?_, ?_⟩
  · intro h
    simp only [AirErrorHandler, h]
  · intro ei h hne
    have h20 := hne "20" (by simp [recognizedCodes])
    have h345 := hne "345" (by simp [recognizedCodes])
    have h1512 := hne "1512" (by simp [recognizedCodes])
    have h6207 := hne "6207" (by simp [recognizedCodes])
    have h6119 := hne "6119" (by simp [recognizedCodes])
    have h4454 := hne "4454" (by simp [recognizedCodes])
    have h12009 := hne "12009" (by simp [recognizedCodes])
    have h13003 := hne "13003" (by simp [recognizedCodes])
    have h3003 := hne "3003" (by simp [recognizedCodes])
    have h3000 := hne "3000" (by simp [recognizedCodes])
    have h2602 := hne "2602" (by simp [recognizedCodes])
    have h3037 := hne "3037" (by simp [recognizedCodes])
    simp only [AirErrorHandler, h]
    rw [if_neg h20, if_neg (not_or.mpr ⟨h345, h1512⟩), if_neg (not_or.mpr ⟨h6207, h6119⟩),
      if_neg h4454, if_neg h12009, if_neg h13003, if_neg h3003, if_neg h3000,
      if_neg (not_or.mpr ⟨h2602, h3037⟩)]
  · intro m hm hm2
    simp only [processUAPIError, hm]
    rw [if_neg hm2]
  · intro h1 h2 h3
    simp only [processUAPIError, getUAPIErrorMessage, h1, h2, h3, truthyOptStr]
    rw [if_neg (by decide)]
  · intro h
    rcases h with h | h
    · simp only [processUAPIError, h]
    · simp only [processUAPIError, h]
      rw [if_pos trivial]

/-- C3 witness: a document whose faultstring is an unable-to-retrieve
message, with no structured error info, is classified UnableToRetrieve
through the free-text chain. -/
theorem claim_C3_witness :
    AirErrorHandler (fun _ => none) docC3unable = .unableToRetrieve := by
  have h := claim_C3_amended_fallback_chain (fun _ => none) docC3unable
  rw [h.1 rfl, h.2.2.1 "UNABLE TO RETRIEVE RECORD" rfl (by decide)]
  decide

/- ------------------------------------------------------------------ -/
/- Claim C8                                                            -/
/- ------------------------------------------------------------------ -/

/-- Binding after a thrown Except error keeps the error. -/
theorem except_throw_bind (e : ε) (f : α → Except ε β) :
    ((throw e : Except ε α) >>= f) = Except.error e := rfl

/-- Binding after an Except error keeps the error. -/
theorem except_error_bind (e : ε) (f : α → Except ε β) :
    ((Except.error e : Except ε α) >>= f) = Except.error e := rfl

/-- Binding after an Except success applies the continuation. -/
theorem except_ok_bind (a : α) (f : α → Except ε β) :
    ((Except.ok a : Except ε α) >>= f) = f a := rfl

/-- C8: when the provider-reservation-info node referenced by an air
reservation is absent (the table itself being present), extractBookings
does not fail with the controlled ReservationProviderInfoMissing parsing
error: providerInfo.Key is read before the guard, so the computation ends in
an uncontrolled TypeError and the guard is dead code. -/
theorem claim_C8_provider_info_missing_crash (pd : Option String → Int) (doc : RawDoc)
    (rec : URec) (bk : RawBooking) (ri : List (String × ProviderInfo))
    (hm : checkMessages doc.responseMessages = none)
    (hsf : doc.airSegmentSellFailureInfo = false)
    (hr : doc.universalRecord = some rec)
    (hair : rec.airReservations = some [bk])
    (hri : rec.providerReservationInfo = some ri)
    (hlk : bk.providerReservationInfoRef.bind (fun r => List.lookup r ri) = none) :
    extractBookings pd doc = .error .typeError
    ∧ extractBookings pd doc ≠ .error .reservationProviderInfoMissing := by
  have h1 : extractBookings pd doc = .error .typeError := by
    simp [extractBookings, extractBooking, mapExc, hm, hsf, hr, hair, hri, hlk,
      except_throw_bind, except_error_bind]
  refine ⟨h1, ?_⟩
  rw [h1]
  intro hcontra
  exact absurd (Except.error.inj hcontra) (by decide)

/-- C8 witness: the concrete document whose single air reservation references
the missing provider info PR1 crashes with the TypeError instead of the
parsing error. -/
theorem claim_C8_witness :
    extractBookings (fun _ => 0) docC8 = .error .typeError
    ∧ extractBookings (fun _ => 0) docC8 ≠ .error .reservationProviderInfoMissing :=
  claim_C8_provider_info_missing_crash (fun _ => 0) docC8
    { locatorCode := some "UR1", version := some "1"
      bookingTravelers := some [("BT1", { present := true })]
      providerReservationInfo := some []
      airReservations := some
        [{ providerReservationInfoRef := some "PR1", locatorCode := some "RES1"
           travelerRefs := some ["BT1"], documentInfoTickets := none
           airPricingInfos := none, ticketingModifiers := none }] }
    { providerReservationInfoRef := some "PR1", locatorCode := some "RES1"
      travelerRefs := some ["BT1"], documentInfoTickets := none
      airPricingInfos := none, ticketingModifiers := none }
    [] rfl rfl rfl rfl rfl rfl

/- ------------------------------------------------------------------ -/
/- Claim C6                                                            -/
/- ------------------------------------------------------------------ -/

/-- isENDat holds exactly on lists beginning with the literal END followed
by end-of-input or whitespace. -/
theorem isENDat_iff (l : List Char) :
    isENDat l = true ↔ ∃ r, l = 'E' :: 'N' :: 'D' :: r ∧ endsOk r = true := by
  constructor
  · intro h
    simp only [isENDat, Bool.and_eq_true, decide_eq_true_eq] at h
    refine ⟨l.drop 3, ?_, h.2⟩
    conv_lhs => rw [← List.take_append_drop 3 l]
    rw [h.1]
    rfl
  · rintro ⟨r, rfl, hr⟩
    simp [isENDat, hr]

/-- The last element of a strictly increasing list of naturals is its
maximum. -/
theorem getLast?_max_of_pairwise_lt :
    ∀ (xs : List Nat), xs.Pairwise (· < ·) → ∀ m, xs.getLast? = some m →
      m ∈ xs ∧ ∀ j ∈ xs, j ≤ m := by
  intro xs
  induction xs with
  | nil =>
    intro _ m hm
    simp at hm
  | cons x ys ih =>
    intro hp m hm
    cases ys with
    | nil =>
      have hx : x = m := by simpa using hm
      subst hx
      refine ⟨List.mem_cons_self x [], ?_⟩
      intro j hj
      rcases List.mem_cons.mp hj with rfl | hj2
      · exact Nat.le_refl _
      · simp at hj2
    | cons y zs =>
      rw [List.getLast?_cons_cons] at hm
      rcases ih (List.pairwise_cons.mp hp).2 m hm with ⟨hmem, hmax⟩
      refine ⟨List.mem_cons_of_mem x hmem, ?_⟩
      intro j hj
      rcases List.mem_cons.mp hj with rfl | hj2
      · exact Nat.le_of_lt ((List.pairwise_cons.mp hp).1 m hmem)
      · exact hmax j hj2

/-- Candidate indexes of the fare-calculation pattern: membership in the
filtered range of fcIdx is exactly the greedy-match condition, the range
bound being implied by the END match fitting inside the list. -/
theorem mem_fcFilter (l : List Char) (i : Nat) :
    i ∈ (List.range l.length).filter (fun i => decide (1 ≤ i) && isENDat (l.drop i))
      ↔ 1 ≤ i ∧ isENDat (l.drop i) = true := by
  rw [List.mem_filter, List.mem_range]
  constructor
  · rintro ⟨h1, h2⟩
    simp only [Bool.and_eq_true, decide_eq_true_eq] at h2
    exact ⟨h2.1, h2.2⟩
  · rintro ⟨h1, h2⟩
    have hlen : i < l.length := by
      rcases (isENDat_iff (l.drop i)).mp h2 with ⟨r, hr, _⟩
      have hr3 : (l.drop i).length = r.length + 3 := by
        rw [hr]
        simp only [List.length_cons]
      have h3 : l.length - i = r.length + 3 := by
        rw [← List.length_drop i l, hr3]
      omega
    exact ⟨hlen, by simp [h1, h2]⟩

/-- Decompositions of the string correspond to candidate indexes: the prefix
length of any valid decomposition is a candidate, and every candidate index
yields a decomposition at that prefix length. -/
theorem fcCand_iff_decomp (l : List Char) (i : Nat) :
    (1 ≤ i ∧ isENDat (l.drop i) = true ∧ i ≤ l.length) ↔
      (∃ p r, l = p ++ 'E' :: 'N' :: 'D' :: r ∧ p.length = i ∧ p ≠ [] ∧ endsOk r = true) := by
  constructor
  · rintro ⟨h1, h2, h3⟩
    rcases (isENDat_iff (l.drop i)).mp h2 with ⟨r, hr, hok⟩
    have hlen : (l.take i).length = i := by
      rw [List.length_take]
      omega
    refine ⟨l.take i, r, ?_, hlen, ?_, hok⟩
    · conv_lhs => rw [← List.take_append_drop i l]
      rw [hr]
    · intro hnil
      rw [hnil] at hlen
      simp at hlen
      omega
  · rintro ⟨p, r, rfl, rfl, hne, hok⟩
    refine ⟨?_, ?_, ?_⟩
    · have := List.length_pos.mpr hne
      omega
    · rw [List.drop_left]
      exact (isENDat_iff _).mpr ⟨r, rfl, hok⟩
    · simp only [List.length_append, List.length_cons]
      omega

/-- C6 amended: a fare-calculation string parses exactly when it decomposes
as a non-empty prefix, the literal END, and an empty-or-whitespace-headed
remainder; on success the returned content is the longest such prefix with
its first parenthetical separator replaced by a period (not all separators,
which is the corrected part), the firstOrigin field is the match of the
leading-origin pattern and the roe field the capture of the ROE pattern; a
string with no such decomposition is a failure (the source crashes on the
null match), never a defaulted result. -/
theorem claim_C6_amended_fare_calculation (s : String) :
    (parseFareCalculation s = none ↔
      ¬ ∃ p r, s.data = p ++ 'E' :: 'N' :: 'D' :: r ∧ p ≠ [] ∧ endsOk r = true)
    ∧ (∀ res, parseFareCalculation s = some res →
        res.firstOrigin = firstOriginMatch s.data ∧ res.roe = roeScan s.data)
    ∧ (∀ res, parseFareCalculation s = some res →
        ∃ p r, s.data = p ++ 'E' :: 'N' :: 'D' :: r ∧ p ≠ [] ∧ endsOk r = true
          ∧ res.fareCalculation = String.mk (replFirstSep p)
          ∧ (∀ q t, s.data = q ++ 'E' :: 'N' :: 'D' :: t → q ≠ [] → endsOk t = true →
              q.length ≤ p.length)) := by
  have hchain : ((List.range s.data.length).filter
      (fun i => decide (1 ≤ i) && isENDat (s.data.drop i))).Pairwise (· < ·) :=
    (List.pairwise_lt_range _).filter _
  refine ⟨?_, ?_, ?_⟩
  · cases hfc : fcIdx s.data with
    | none =>
      simp only [parseFareCalculation, hfc]
      refine iff_of_true trivial ?_
      rintro ⟨p, r, hd, hne, hok⟩
      have hc := (fcCand_iff_decomp s.data p.length).mpr ⟨p, r, hd, rfl, hne, hok⟩
      have hmem := (mem_fcFilter s.data p.length).mpr ⟨hc.1, hc.2.1⟩
      have hnil := List.getLast?_eq_none_iff.mp hfc
      rw [hnil] at hmem
      simp at hmem
    | some i =>
      simp only [parseFareCalculation, hfc]
      have hmm := getLast?_max_of_pairwise_lt _ hchain i hfc
      have hc := (mem_fcFilter s.data i).mp hmm.1
      have hle : i ≤ s.data.length := by
        have := (List.mem_filter.mp hmm.1).1
        rw [List.mem_range] at this
        omega
      rcases (fcCand_iff_decomp s.data i).mp ⟨hc.1, hc.2, hle⟩ with ⟨p, r, hd, hplen, hne, hok⟩
      exact iff_of_false (by simp) (not_not_intro ⟨p, r, hd, hne, hok⟩)
  · intro res h
    cases hfc : fcIdx s.data with
    | none =>
      rw [parseFareCalculation, hfc] at h
      exact absurd h (by simp)
    | some i =>
      rw [parseFareCalculation, hfc] at h
      have heq := Option.some.inj h
      rw [← heq]
      exact ⟨rfl, rfl⟩
  · intro res h
    cases hfc : fcIdx s.data with
    | none =>
      rw [parseFareCalculation, hfc] at h
      exact absurd h (by simp)
    | some i =>
      rw [parseFareCalculation, hfc] at h
      have heq := Option.some.inj h
      have hmm := getLast?_max_of_pairwise_lt _ hchain i hfc
      have hc := (mem_fcFilter s.data i).mp hmm.1
      have hle : i ≤ s.data.length := by
        have := (List.mem_filter.mp hmm.1).1
        rw [List.mem_range] at this
        omega
      rcases (fcCand_iff_decomp s.data i).mp ⟨hc.1, hc.2, hle⟩ with ⟨p, r, hd, hplen, hne, hok⟩
      have hptake : p = s.data.take i := by
        rw [hd, ← hplen, List.take_left]
      refine ⟨p, r, hd, hne, hok, ?_, ?_⟩
      · rw [← heq, hptake]
      · intro q t hdq hneq hokq
        have hcq := (fcCand_iff_decomp s.data q.length).mpr ⟨q, t, hdq, rfl, hneq, hokq⟩
        have hmemq := (mem_fcFilter s.data q.length).mpr ⟨hcq.1, hcq.2.1⟩
        rw [hplen]
        exact hmm.2 q.length hmemq

/-- C6 counterexample: with two embedded parenthetical separators the source
replaces only the first (String.prototype.replace without the g flag), so
the returned content differs from the fully normalized content the claim
describes. -/
theorem claim_C6_counterexample :
    parseFareCalculation "A (B (C END"
      = some { fareCalculation := "A.B (C ", firstOrigin := none, roe := none }
    ∧ parseFareCalculationSpec "A (B (C END"
      = some { fareCalculation := "A.B.C ", firstOrigin := none, roe := none }
    ∧ parseFareCalculation "A (B (C END" ≠ parseFareCalculationSpec "A (B (C END" :=
  ⟨rfl, rfl, by decide⟩

/-- C6 witness: a concrete matching fare-calculation line decomposes at the
END marker and carries its origin and ROE captures. -/
theorem claim_C6_witness :
    parseFareCalculation "PAR NUC100.00END ROE1.0"
      = some { fareCalculation := "PAR NUC100.00", firstOrigin := some "PAR", roe := some "1.0" }
    ∧ ({ fareCalculation := "PAR NUC100.00", firstOrigin := some "PAR",
          roe := some "1.0" : FareCalcOut }).firstOrigin
        = firstOriginMatch "PAR NUC100.00END ROE1.0".data
    ∧ ({ fareCalculation := "PAR NUC100.00", firstOrigin := some "PAR",
          roe := some "1.0" : FareCalcOut }).roe
        = roeScan "PAR NUC100.00END ROE1.0".data :=
  ⟨rfl,
    ((claim_C6_amended_fare_calculation "PAR NUC100.00END ROE1.0").2.1 _ rfl).1,
    ((claim_C6_amended_fare_calculation "PAR NUC100.00END ROE1.0").2.1 _ rfl).2⟩

/- ------------------------------------------------------------------ -/
/- Claim C10                                                           -/
/- ------------------------------------------------------------------ -/

/-- A successful allCouponsOf run flattens the coupon maps of the tickets in
order. -/
theorem allCouponsOf_ok :
    ∀ (ts : List RawTicket) (ac : List AllCoupon), allCouponsOf ts = .ok ac →
      ac = ts.flatMap (fun t => (t.coupons.getD []).map (mkAllCoupon t.ticketNumber)) := by
  have hmap : ∀ (ts : List RawTicket) (ls : List (List AllCoupon)),
      mapExc (fun t =>
        match t.coupons with
        | none => .error AirFail.typeError
        | some cs => .ok (cs.map (mkAllCoupon t.ticketNumber))) ts = .ok ls →
      ls = ts.map (fun t => (t.coupons.getD []).map (mkAllCoupon t.ticketNumber)) := by
    intro ts
    induction ts with
    | nil =>
      intro ls h
      simp only [mapExc] at h
      exact (Except.ok.inj h).symm
    | cons t rest ih =>
      intro ls h
      cases hc : t.coupons with
      | none =>
        rw [show mapExc (fun t =>
            match t.coupons with
            | none => Except.error AirFail.typeError
            | some cs => Except.ok (cs.map (mkAllCoupon t.ticketNumber))) (t :: rest)
            = Except.error AirFail.typeError from by
          simp [mapExc, hc, except_error_bind]] at h
        exact absurd h (by simp)
      | some cs =>
        simp only [mapExc, hc] at h
        cases hrest : mapExc (fun t =>
            match t.coupons with
            | none => Except.error AirFail.typeError
            | some cs => Except.ok (cs.map (mkAllCoupon t.ticketNumber))) rest with
        | error e =>
          rw [hrest] at h
          simp only [except_ok_bind, except_error_bind] at h
          exact absurd h (by simp)
        | ok bs =>
          rw [hrest] at h
          simp only [except_ok_bind] at h
          have hls := Except.ok.inj h
          rw [← hls, ih bs hrest]
          simp [hc]
  intro ts ac h
  unfold allCouponsOf at h
  cases hm : mapExc (fun t =>
      match t.coupons with
      | none => Except.error AirFail.typeError
      | some cs => Except.ok (cs.map (mkAllCoupon t.ticketNumber))) ts with
  | error e =>
    rw [hm] at h
    exact absurd h (by simp [Except.map])
  | ok ls =>
    rw [hm] at h
    simp only [Except.map] at h
    rw [← Except.ok.inj h, hmap ts ls hm]
    rw [List.flatMap_def]

/-- On a list with pairwise-distinct keys, searching for the key of the j-th
element finds exactly position j. -/
theorem findIdxN_key_self :
    ∀ (ac : List AllCoupon) (j : Nat) (h : j < ac.length),
      (ac.map (fun a => a.key)).Nodup →
      findIdxN (fun a => a.key == (ac.get ⟨j, h⟩).key) ac = some j := by
  intro ac
  induction ac with
  | nil =>
    intro j h
    simp at h
  | cons a rest ih =>
    intro j h hnd
    cases j with
    | zero =>
      simp [findIdxN]
    | succ j2 =>
      have hj2 : j2 < rest.length := by
        simp at h
        omega
      have hget : (a :: rest).get ⟨j2 + 1, h⟩ = rest.get ⟨j2, hj2⟩ := rfl
      rw [hget]
      have hnd2 : (rest.map (fun a => a.key)).Nodup := (List.nodup_cons.mp hnd).2
      have hne : a.key ≠ (rest.get ⟨j2, hj2⟩).key := by
        intro hk
        have hmem : a.key ∈ rest.map (fun a => a.key) := by
          rw [hk]
          exact List.mem_map_of_mem (fun a => a.key) (rest.get_mem j2 hj2)
        exact (List.nodup_cons.mp hnd).1 hmem
      have hb : (a.key == (rest.get ⟨j2, hj2⟩).key) = false := beq_eq_false_iff_ne.mpr hne
      simp only [findIdxN, hb, if_false]
      rw [ih j2 hj2 hnd2]
      rfl

/-- The flattened coupons of the built ticket list are the coupon outputs at
the keys of the flattened allCoupons list, in order. -/
theorem flatCouponsOf_buildTickets (ac : List AllCoupon) (ap : Option EtrPricing) :
    ∀ ts : List RawTicket,
      flatCouponsOf (buildTickets ac ap ts)
        = (ts.flatMap (fun t => (t.coupons.getD []).map (mkAllCoupon t.ticketNumber))).map
            (fun a => mkCouponOut ac ap a.key) := by
  intro ts
  induction ts with
  | nil => rfl
  | cons t rest ih =>
    have hstep : flatCouponsOf (buildTickets ac ap (t :: rest))
        = (t.coupons.getD []).map (fun kc => mkCouponOut ac ap kc.1)
          ++ flatCouponsOf (buildTickets ac ap rest) := rfl
    rw [hstep, ih, List.flatMap_cons, List.map_append, List.map_map]
    rfl

/-- The stopover field of a built coupon, unfolded. -/
theorem mkCouponOut_stopover (ac : List AllCoupon) (ap : Option EtrPricing) (k : String) :
    (mkCouponOut ac ap k).stopover =
      match
        (match findIdxN (fun a => a.key == k) ac with
         | some i => ac.get? (i + 1)
         | none => ac.get? 0) with
      | some nc => nc.stopover
      | none => true := rfl

/-- Inversion of a successful Except bind. -/
theorem bind_ok_inv {ε α β : Type} {x : Except ε α} {f : α → Except ε β} {r : β}
    (h : (x >>= f) = Except.ok r) : ∃ a, x = Except.ok a ∧ f a = Except.ok r := by
  cases x with
  | error e =>
    rw [except_error_bind] at h
    exact absurd h (by simp)
  | ok a =>
    rw [except_ok_bind] at h
    exact ⟨a, rfl, h⟩

/-- C10: the stopover flag of every coupon returned by the electronic-ticket
parser is not the coupon's own StopoverCode-derived flag but that of the
next coupon in the flattened allCoupons list, and the last coupon's flag is
true.  First conjunct: over any ticket list whose flattened coupons carry
pairwise-distinct keys, the parsed coupons align with the flattened list
and the j-th one's stopover is the (j+1)-th flattened entry's flag, true at
the end.  Second conjunct ties this to getTicketFromEtr: its tickets output
is exactly buildTickets over the flattened coupons of the ETR's tickets. -/
theorem claim_C10_coupon_stopover :
    (∀ (ts : List RawTicket) (ap : Option EtrPricing) (ac : List AllCoupon),
      allCouponsOf ts = .ok ac →
      (ac.map (fun a => a.key)).Nodup →
      ac = ts.flatMap (fun t => (t.coupons.getD []).map (mkAllCoupon t.ticketNumber))
      ∧ (flatCouponsOf (buildTickets ac ap ts)).length = ac.length
      ∧ ∀ j (h : j < (flatCouponsOf (buildTickets ac ap ts)).length),
          ((flatCouponsOf (buildTickets ac ap ts)).get ⟨j, h⟩).stopover =
            match ac.get? (j + 1) with
            | some nc => nc.stopover
            | none => true)
    ∧ (∀ (etr : Etr) (obj : RawDoc) (allow : Bool) (r : EtrTicketRecord),
        getTicketFromEtr etr obj allow = .ok r →
        ∃ ts ac, etrTicketsList etr = .ok ts ∧ allCouponsOf ts = .ok ac
          ∧ r.tickets = buildTickets ac
              (etr.airPricingInfo.bind (fun l => l.head?.map (fun kv => kv.2))) ts) := by
  constructor
  · intro ts ap ac hok hnd
    have hac := allCouponsOf_ok ts ac hok
    have hflat : flatCouponsOf (buildTickets ac ap ts)
        = ac.map (fun a => mkCouponOut ac ap a.key) := by
      rw [flatCouponsOf_buildTickets ac ap ts, ← hac]
    refine ⟨hac, by rw [hflat]; simp, ?_⟩
    intro j h
    have hj : j < ac.length := by
      have := h
      rw [hflat] at this
      simpa using this
    have hget : (flatCouponsOf (buildTickets ac ap ts)).get ⟨j, h⟩
        = mkCouponOut ac ap ((ac.get ⟨j, hj⟩).key) := by
      rw [List.get_of_eq hflat ⟨j, h⟩]
      simp
    rw [hget, mkCouponOut_stopover, findIdxN_key_self ac j hj hnd]
  · intro etr obj allow r h
    unfold getTicketFromEtr at h
    by_cases hg : ¬ allow = true ∧ ¬ truthyOptStr etr.providerLocatorCode = true
    · rw [if_pos hg] at h
      rw [show ((throw AirFail.ticketInfoIncomplete : Except AirFail PUnit) >>= fun _ => _)
          = _ from rfl] at h
      simp only [except_throw_bind] at h
      exact absurd h (by simp)
    · rw [if_neg hg] at h
      simp only [pure_bind] at h
      rcases bind_ok_inv h with ⟨ps, hps, h2⟩
      rcases bind_ok_inv h2 with ⟨ts, hts, h3⟩
      rcases bind_ok_inv h3 with ⟨ac, hac, h4⟩
      rcases bind_ok_inv h4 with ⟨t0, ht0, h5⟩
      rcases bind_ok_inv h5 with ⟨fc, hfc, h6⟩
      refine ⟨ts, ac, hts, hac, ?_⟩
      have hr := Except.ok.inj h6
      rw [← hr]

/-- C10 witness: on the concrete two-ticket ETR the three parsed coupons
carry the shifted stopover flags: the first takes the second flattened
coupon's flag (true), the second the third's (false), and the last is true. -/
theorem claim_C10_witness :
    (flatCouponsOf (buildTickets acC10 apC10 tsC10)).length = acC10.length
    ∧ ((flatCouponsOf (buildTickets acC10 apC10 tsC10)).get ⟨0, by decide⟩).stopover = true
    ∧ ((flatCouponsOf (buildTickets acC10 apC10 tsC10)).get ⟨1, by decide⟩).stopover = false
    ∧ ((flatCouponsOf (buildTickets acC10 apC10 tsC10)).get ⟨2, by decide⟩).stopover = true := by
  have h := claim_C10_coupon_stopover.1 tsC10 apC10 acC10 rfl (by decide)
  refine ⟨h.2.1, ?_, ?_, ?_⟩
  · rw [h.2.2 0 (by decide)]
    decide
  · rw [h.2.2 1 (by decide)]
    decide
  · rw [h.2.2 2 (by decide)]
    decide

/- ------------------------------------------------------------------ -/
/- Claim C1                                                            -/
/- ------------------------------------------------------------------ -/

theorem keysOccur_append (key : α → String) (l : List α) (p : α) :
    keysOccur key (l ++ [p])
      = if key p ∈ keysOccur key l then keysOccur key l else keysOccur key l ++ [key p] := by
  unfold keysOccur
  rw [List.foldl_append]
  rfl

theorem groupByKey_append (key : α → String) (l : List α) (p : α) :
    groupByKey key (l ++ [p]) = groupAppend (key p) p (groupByKey key l) := by
  unfold groupByKey
  rw [List.foldl_append]
  rfl

theorem mem_keysOccur (key : α → String) :
    ∀ (l : List α) (g : String), g ∈ keysOccur key l ↔ g ∈ l.map key := by
  intro l
  induction l using List.reverseRecOn with
  | nil =>
    intro g
    simp [keysOccur]
  | append_singleton l p ih =>
    intro g
    rw [keysOccur_append, List.map_append]
    by_cases h : key p ∈ keysOccur key l
    · rw [if_pos h]
      rw [List.mem_append]
      constructor
      · intro hg
        exact Or.inl ((ih g).mp hg)
      · rintro (hg | hg)
        · exact (ih g).mpr hg
        · rcases List.mem_singleton.mp hg with rfl
          exact h
    · rw [if_neg h, List.mem_append, List.mem_append, ih g]
      simp

theorem nodup_keysOccur (key : α → String) :
    ∀ l : List α, (keysOccur key l).Nodup := by
  intro l
  induction l using List.reverseRecOn with
  | nil => simp [keysOccur]
  | append_singleton l p ih =>
    rw [keysOccur_append]
    by_cases h : key p ∈ keysOccur key l
    · rw [if_pos h]
      exact ih
    · rw [if_neg h]
      exact List.Nodup.append ih (List.nodup_singleton _)
        (by
          intro a ha hb
          rcases List.mem_singleton.mp hb with rfl
          exact h ha)

theorem groupAppend_mem_update (g : String) (p : α) (F : String → List α) :
    ∀ ks : List String, ks.Nodup → g ∈ ks →
      groupAppend g p (ks.map (fun k => (k, F k)))
        = ks.map (fun k => (k, if k = g then F k ++ [p] else F k)) := by
  intro ks
  induction ks with
  | nil =>
    intro _ h
    simp at h
  | cons k rest ih =>
    intro hnd hmem
    by_cases hk : k = g
    · subst hk
      have hnot : k ∉ rest := (List.nodup_cons.mp hnd).1
      have hl : groupAppend k p (List.map (fun k2 => (k2, F k2)) (k :: rest))
          = (k, F k ++ [p]) :: List.map (fun k2 => (k2, F k2)) rest := by
        simp [groupAppend]
      rw [hl, List.map_cons, if_pos rfl]
      congr 1
      exact (List.map_congr_left (fun k2 hk2 => by
        have hne : k2 ≠ k := fun hh => hnot (hh ▸ hk2)
        simp [hne])).symm
    · rcases List.mem_cons.mp hmem with rfl | hmem2
      · exact absurd rfl hk
      · have hl : groupAppend g p (List.map (fun k2 => (k2, F k2)) (k :: rest))
            = (k, F k) :: groupAppend g p (List.map (fun k2 => (k2, F k2)) rest) := by
          simp [groupAppend, hk]
        rw [hl, ih (List.nodup_cons.mp hnd).2 hmem2, List.map_cons, if_neg hk]

theorem groupAppend_notmem_append (g : String) (p : α) (F : String → List α) :
    ∀ ks : List String, g ∉ ks →
      groupAppend g p (ks.map (fun k => (k, F k)))
        = ks.map (fun k => (k, F k)) ++ [(g, [p])] := by
  intro ks
  induction ks with
  | nil =>
    intro _
    rfl
  | cons k rest ih =>
    intro hmem
    have hk : k ≠ g := fun hh => hmem (hh ▸ List.mem_cons_self k rest)
    have hl : groupAppend g p (List.map (fun k2 => (k2, F k2)) (k :: rest))
        = (k, F k) :: groupAppend g p (List.map (fun k2 => (k2, F k2)) rest) := by
      simp [groupAppend, hk]
    rw [hl, ih (fun hh => hmem (List.mem_cons_of_mem k hh)), List.map_cons, List.cons_append]

/-- The grouping reduce of the fare-quote pipeline computes, in
first-occurrence key order, each group key with the filter of the list on
that key. -/
theorem groupByKey_eq (key : α → String) :
    ∀ l : List α, groupByKey key l
      = (keysOccur key l).map (fun g => (g, l.filter (fun p => key p == g))) := by
  intro l
  induction l using List.reverseRecOn with
  | nil => rfl
  | append_singleton l p ih =>
    rw [groupByKey_append, ih, keysOccur_append]
    by_cases h : key p ∈ keysOccur key l
    · rw [if_pos h,
        groupAppend_mem_update (key p) p _ (keysOccur key l) (nodup_keysOccur key l) h]
      apply List.map_congr_left
      intro g hg
      by_cases hgp : g = key p
      · subst hgp
        rw [if_pos rfl, List.filter_append]
        simp
      · rw [if_neg hgp, List.filter_append]
        have hb : (key p == g) = false := beq_eq_false_iff_ne.mpr (fun hh => hgp hh.symm)
        simp [hb]
    · rw [if_neg h, groupAppend_notmem_append (key p) p _ (keysOccur key l) h, List.map_append]
      congr 1
      · apply List.map_congr_left
        intro g hg
        have hgp : (key p == g) = false := beq_eq_false_iff_ne.mpr (fun hh => h (hh ▸ hg))
        rw [List.filter_append]
        simp [hgp]
      · have hfl : l.filter (fun q => key q == key p) = [] := by
          rw [List.filter_eq_nil_iff]
          intro q hq hb
          exact h ((mem_keysOccur key l (key p)).mpr
            (beq_iff_eq.mp hb ▸ List.mem_map_of_mem key hq))
        simp [List.filter_append, hfl]

theorem indexFrom_length : ∀ (n : Nat) (l : List FareQuoteOut),
    (indexFrom n l).length = l.length := by
  intro n l
  induction l generalizing n with
  | nil => rfl
  | cons fq rest ih =>
    simp [indexFrom, ih]

theorem indexFrom_get? : ∀ (l : List FareQuoteOut) (n j : Nat),
    (indexFrom n l).get? j = (l.get? j).map (fun y => setFqIndex y (n + j)) := by
  intro l
  induction l with
  | nil =>
    intro n j
    simp [indexFrom]
  | cons fq rest ih =>
    intro n j
    cases j with
    | zero => simp [indexFrom]
    | succ j2 =>
      simp only [indexFrom, List.get?_cons_succ]
      rw [ih (n + 1) j2]
      cases rest.get? j2 with
      | none => rfl
      | some y =>
        simp [Nat.add_assoc, Nat.add_comm 1 j2]

theorem indexFrom_mem : ∀ (l : List FareQuoteOut) (n : Nat) (fq : FareQuoteOut),
    fq ∈ indexFrom n l → ∃ y ∈ l, ∃ m, fq = setFqIndex y m := by
  intro l
  induction l with
  | nil =>
    intro n fq h
    simp [indexFrom] at h
  | cons y rest ih =>
    intro n fq h
    rcases List.mem_cons.mp h with rfl | h2
    · exact ⟨y, List.mem_cons_self y rest, n, rfl⟩
    · rcases ih (n + 1) fq h2 with ⟨y2, hy2, m, hm⟩
      exact ⟨y2, List.mem_cons_of_mem y hy2, m, hm⟩

theorem mem_indexFrom_image : ∀ (l : List FareQuoteOut) (n : Nat) (y : FareQuoteOut),
    y ∈ l → ∃ fq ∈ indexFrom n l, fq.pricingInfos = y.pricingInfos := by
  intro l
  induction l with
  | nil =>
    intro n y h
    simp at h
  | cons z rest ih =>
    intro n y h
    rcases List.mem_cons.mp h with rfl | h2
    · exact ⟨setFqIndex y n, List.mem_cons_self _ _, rfl⟩
    · rcases ih (n + 1) y h2 with ⟨fq, hfq, heq⟩
      exact ⟨fq, List.mem_cons_of_mem _ hfq, heq⟩

theorem indexFrom_pairwise (pd : Option String → Int) :
    ∀ (l : List FareQuoteOut) (n : Nat),
      l.Pairwise (fun f1 f2 => pd f1.effectiveDate ≤ pd f2.effectiveDate) →
      (indexFrom n l).Pairwise (fun f1 f2 => pd f1.effectiveDate ≤ pd f2.effectiveDate) := by
  intro l
  induction l with
  | nil =>
    intro n _
    exact List.Pairwise.nil
  | cons fq rest ih =>
    intro n h
    rcases List.pairwise_cons.mp h with ⟨hhead, htail⟩
    refine List.pairwise_cons.mpr ⟨?_, ih (n + 1) htail⟩
    intro b hb
    rcases indexFrom_mem rest (n + 1) b hb with ⟨y, hy, m, rfl⟩
    exact hhead y hy

/-- C1: the fare-quote pipeline groups the pricing infos on their
pricing-info-group key (each output group is the filter of the pricing-info
list on one key, every pricing info lands in a group, and no group is
empty), sorts the groups in ascending order of the parsed effective date of
the group record (the date of the group's first fare component, as written
into fareQuotesCommon), and assigns the 1-based index fields in that sorted
order; pd stands for the moment date parser. -/
theorem claim_C1_fare_quote_grouping (pd : Option String → Int) (pis : List PricingInfoOut)
    (common : List (String × FqCommon)) :
    (∀ j (h : j < (fareQuotesOf pd pis common).length),
        ((fareQuotesOf pd pis common).get ⟨j, h⟩).index = j + 1)
    ∧ (fareQuotesOf pd pis common).Pairwise
        (fun f1 f2 => pd f1.effectiveDate ≤ pd f2.effectiveDate)
    ∧ (∀ fq ∈ fareQuotesOf pd pis common, ∃ g,
        fq.pricingInfos = pis.filter (fun p => jsGroupKey p == g)
        ∧ fq.pricingInfos ≠ []
        ∧ fq.effectiveDate = (List.lookup g common).bind (fun c => c.effectiveDate)
        ∧ fq.segmentRefs = ((List.lookup g common).map (fun c => c.uapiSegmentRefs)).getD [])
    ∧ (∀ p ∈ pis, ∃ fq ∈ fareQuotesOf pd pis common, p ∈ fq.pricingInfos) := by
  have htr : ∀ a b c, fqLe pd a b = true → fqLe pd b c = true → fqLe pd a c = true := by
    intro a b c h1 h2
    simp only [fqLe, decide_eq_true_eq] at h1 h2 ⊢
    exact le_trans h1 h2
  have hto : ∀ a b, fqLe pd a b = true ∨ fqLe pd b a = true := by
    intro a b
    simp only [fqLe, decide_eq_true_eq]
    exact Int.le_total _ _
  have hsorted : (sortByLe (fqLe pd)
      ((groupByKey jsGroupKey pis).map (mkFareQuote common))).Pairwise
      (fun f1 f2 => pd f1.effectiveDate ≤ pd f2.effectiveDate) :=
    (sortByLe_pairwise (fqLe pd) htr hto
      ((groupByKey jsGroupKey pis).map (mkFareQuote common))).imp
      (fun h => by simpa [fqLe] using h)
  refine ⟨?_, ?_, ?_, ?_⟩
  · intro j h
    have hlen : j < (sortByLe (fqLe pd)
        ((groupByKey jsGroupKey pis).map (mkFareQuote common))).length := by
      have h2 := h
      unfold fareQuotesOf at h2
      rw [indexFrom_length] at h2
      exact h2
    have hq : (fareQuotesOf pd pis common).get? j
        = some (setFqIndex ((sortByLe (fqLe pd)
            ((groupByKey jsGroupKey pis).map (mkFareQuote common))).get ⟨j, hlen⟩) (1 + j)) := by
      have hq0 := indexFrom_get? (sortByLe (fqLe pd)
        ((groupByKey jsGroupKey pis).map (mkFareQuote common))) 1 j
      rw [List.get?_eq_get hlen] at hq0
      exact hq0
    have hg2 : (fareQuotesOf pd pis common).get? j
        = some ((fareQuotesOf pd pis common).get ⟨j, h⟩) := List.get?_eq_get h
    have heq := Option.some.inj (hg2.symm.trans hq)
    rw [heq]
    show 1 + j = j + 1
    omega
  · unfold fareQuotesOf
    exact indexFrom_pairwise pd _ 1 hsorted
  · intro fq hfq
    unfold fareQuotesOf at hfq
    rcases indexFrom_mem _ 1 fq hfq with ⟨y, hy, m, rfl⟩
    have hy2 : y ∈ (groupByKey jsGroupKey pis).map (mkFareQuote common) :=
      (sortByLe_perm (fqLe pd) _).mem_iff.mp hy
    rcases List.mem_map.mp hy2 with ⟨entry, hentry, rfl⟩
    rw [groupByKey_eq] at hentry
    rcases List.mem_map.mp hentry with ⟨g, hgmem, rfl⟩
    refine ⟨g, rfl, ?_, rfl, rfl⟩
    have hg2 : g ∈ pis.map jsGroupKey := (mem_keysOccur jsGroupKey pis g).mp hgmem
    rcases List.mem_map.mp hg2 with ⟨p, hp, rfl⟩
    intro hnil
    have hpf : p ∈ pis.filter (fun q => jsGroupKey q == jsGroupKey p) :=
      List.mem_filter.mpr ⟨hp, beq_self_eq_true _⟩
    have hnil2 : pis.filter (fun q => jsGroupKey q == jsGroupKey p) = [] := hnil
    rw [hnil2] at hpf
    simp at hpf
  · intro p hp
    have hg : jsGroupKey p ∈ keysOccur jsGroupKey pis :=
      (mem_keysOccur jsGroupKey pis _).mpr (List.mem_map_of_mem jsGroupKey hp)
    have hentry : (jsGroupKey p, pis.filter (fun q => jsGroupKey q == jsGroupKey p))
        ∈ groupByKey jsGroupKey pis := by
      rw [groupByKey_eq]
      exact List.mem_map_of_mem _ hg
    have hy : mkFareQuote common
        (jsGroupKey p, pis.filter (fun q => jsGroupKey q == jsGroupKey p))
        ∈ (groupByKey jsGroupKey pis).map (mkFareQuote common) :=
      List.mem_map_of_mem _ hentry
    have hy2 : mkFareQuote common
        (jsGroupKey p, pis.filter (fun q => jsGroupKey q == jsGroupKey p))
        ∈ sortByLe (fqLe pd) ((groupByKey jsGroupKey pis).map (mkFareQuote common)) :=
      (sortByLe_perm (fqLe pd) _).mem_iff.mpr hy
    rcases mem_indexFrom_image _ 1 _ hy2 with ⟨fq, hfq, heq⟩
    refine ⟨fq, ?_, ?_⟩
    · unfold fareQuotesOf
      exact hfq
    · rw [heq]
      show p ∈ pis.filter (fun q => jsGroupKey q == jsGroupKey p)
      exact List.mem_filter.mpr ⟨hp, beq_self_eq_true _⟩

/-- C1 witness: on two pricing infos in groups G1 and G2 whose group records
carry dates valued 10 and 5, the pipeline puts G2 first along with both
1-based indexes in order. -/
theorem claim_C1_witness :
    ((fareQuotesOf pdC1 pisC1 commonC1).get ⟨0, by decide⟩).index = 1
    ∧ ((fareQuotesOf pdC1 pisC1 commonC1).get ⟨1, by decide⟩).index = 2
    ∧ ((fareQuotesOf pdC1 pisC1 commonC1).get ⟨0, by decide⟩).effectiveDate = some "20-01" := by
  have h := claim_C1_fare_quote_grouping pdC1 pisC1 commonC1
  exact ⟨h.1 0 (by decide), h.1 1 (by decide), by decide⟩

/- ------------------------------------------------------------------ -/
/- Claim C7: the pricing-solution mutation                             -/
/- ------------------------------------------------------------------ -/

/-- A successful solsOf run exposes the pricing-solution node. -/
theorem solsOf_ok {obj : PriceRspDoc} {sols : List PricingSolutionXml}
    (h : solsOf obj = Except.ok sols) : obj.pricingSolutions = some sols := by
  cases hx : obj.pricingSolutions with
  | none =>
    unfold solsOf at h
    rw [hx] at h
    exact absurd h (by simp)
  | some s0 =>
    unfold solsOf at h
    rw [hx] at h
    exact congrArg some (Except.ok.inj h)

/-- A successful psHead run decomposes the list into its head and tail. -/
theorem psHead_ok {sols : List PricingSolutionXml}
    {so : PricingSolutionXml × List PricingSolutionXml}
    (h : psHead sols = Except.ok so) : sols = so.1 :: so.2 := by
  cases sols with
  | nil => exact absurd h (by simp [psHead])
  | cons s rest =>
    have h2 : (s, rest) = so := Except.ok.inj h
    rw [← h2]

/-- A successful piOf run exposes the pricing-info node. -/
theorem piOf_ok {s : PricingSolutionXml} {infos : List PricingInfoXml}
    (h : piOf s = Except.ok infos) : s.airPricingInfo = some infos := by
  cases hx : s.airPricingInfo with
  | none =>
    unfold piOf at h
    rw [hx] at h
    exact absurd h (by simp)
  | some i0 =>
    unfold piOf at h
    rw [hx] at h
    exact congrArg some (Except.ok.inj h)

/-- The push into the matching pricing info keeps the key list. -/
theorem pushPT_map_key (k : String) (pt : PTypeXml) :
    ∀ infos : List PricingInfoXml,
      (pushPT infos k pt).map (fun i => i.key) = infos.map (fun i => i.key) := by
  intro infos
  induction infos with
  | nil => rfl
  | cons i rest ih =>
    by_cases hk : (i.key == k) = true
    · simp [pushPT, hk]
    · simp [pushPT, hk, ih]

/-- When the key is present, the push grows the total passenger-type count
by exactly one. -/
theorem pushPT_sum (k : String) (pt : PTypeXml) :
    ∀ infos : List PricingInfoXml, hasKeyPI infos k = true →
      ((pushPT infos k pt).map (fun i => i.passengerType.length)).sum
        = (infos.map (fun i => i.passengerType.length)).sum + 1 := by
  intro infos
  induction infos with
  | nil =>
    intro h
    exact absurd h (by simp [hasKeyPI])
  | cons i rest ih =>
    intro h
    by_cases hk : (i.key == k) = true
    · simp only [pushPT, if_pos hk, List.map_cons, List.sum_cons]
      simp only [List.length_append, List.length_cons, List.length_nil]
      omega
    · have h2 : hasKeyPI rest k = true := by
        simp only [hasKeyPI, Bool.or_eq_true] at h
        rcases h with h | h
        · exact absurd h hk
        · exact h
      simp only [pushPT, if_neg hk, List.map_cons, List.sum_cons, ih h2]
      omega

/-- The passenger loop keeps the key list of the pricing infos. -/
theorem distLoop_map_key (ps : List PassengerEnv) :
    ∀ (idx : Nat) (ppr : List (String × List (String × Nat)))
      (infos infos2 : List PricingInfoXml),
      distLoop ps idx ppr infos = Except.ok infos2 →
      infos2.map (fun i => i.key) = infos.map (fun i => i.key) := by
  induction ps with
  | nil =>
    intro idx ppr infos infos2 h
    simp only [distLoop] at h
    rw [← Except.ok.inj h]
  | cons p rest ih =>
    intro idx ppr infos infos2 h
    cases hf : findResKey ppr p.ageCategory with
    | none =>
      simp only [distLoop, hf] at h
      exact absurd h (by simp)
    | some kp =>
      obtain ⟨k, ppr2⟩ := kp
      simp only [distLoop, hf] at h
      by_cases hk : hasKeyPI infos k = true
      · rw [if_pos hk] at h
        exact (ih (idx + 1) ppr2 _ infos2 h).trans (pushPT_map_key k (mkPTX idx p) infos)
      · rw [if_neg hk] at h
        exact absurd h (by simp)

/-- A successful passenger loop adds exactly one passenger-type entry per
passenger of the environment. -/
theorem distLoop_sum (ps : List PassengerEnv) :
    ∀ (idx : Nat) (ppr : List (String × List (String × Nat)))
      (infos infos2 : List PricingInfoXml),
      distLoop ps idx ppr infos = Except.ok infos2 →
      (infos2.map (fun i => i.passengerType.length)).sum
        = (infos.map (fun i => i.passengerType.length)).sum + ps.length := by
  induction ps with
  | nil =>
    intro idx ppr infos infos2 h
    simp only [distLoop] at h
    rw [← Except.ok.inj h]
    simp
  | cons p rest ih =>
    intro idx ppr infos infos2 h
    cases hf : findResKey ppr p.ageCategory with
    | none =>
      simp only [distLoop, hf] at h
      exact absurd h (by simp)
    | some kp =>
      obtain ⟨k, ppr2⟩ := kp
      simp only [distLoop, hf] at h
      by_cases hk : hasKeyPI infos k = true
      · rw [if_pos hk] at h
        have h1 := ih (idx + 1) ppr2 _ infos2 h
        rw [pushPT_sum k (mkPTX idx p) infos hk] at h1
        simp only [List.length_cons]
        omega
      · rw [if_neg hk] at h
        exact absurd h (by simp)

/-- Wiping the passenger types keeps the key list. -/
theorem wipe_map_key (infos : List PricingInfoXml) :
    (infos.map (fun i => { i with passengerType := [] })).map (fun i => i.key)
      = infos.map (fun i => i.key) := by
  induction infos with
  | nil => rfl
  | cons i rest ih => simp [ih]

/-- Wiping the passenger types leaves a total count of zero. -/
theorem wipe_sum (infos : List PricingInfoXml) :
    ((infos.map (fun i => { i with passengerType := [] })).map
        (fun i => i.passengerType.length)).sum = 0 := by
  induction infos with
  | nil => rfl
  | cons i rest ih =>
    simp only [List.map_cons, List.sum_cons, List.length_nil, ih]

/-- C7 amended: normalization is not a pure function of its inputs — the
cited normalizers mutate their arguments.  countHistogram sorts a plain
passenger-type code list in place (the caller's array ends as the sorted
permutation of itself), while an object-carrying list and a non-array input
are left unchanged by it; and every successful run of
airPriceRspPricingSolutionXML rewrites the caller's price response: the
pricing-solution list is replaced by a permutation of itself that is sorted
by parsed price when the list held more than one entry and is unchanged
otherwise, the head solution of that list loses its air-segment-ref node,
receives the itinerary segments as its air-segment node and has its pricing
infos rebuilt — same keys in the same order, old passenger types dropped,
exactly one redistributed passenger-type entry per passenger of the request
— while the remaining solutions are carried over unchanged. -/
theorem claim_C7_amended_normalization_mutation :
    (∀ l, countHistogram (.objs l) = .ok (histOf l, .objs l))
    ∧ (∀ l, countHistogram (.codes l) = .ok (histOf l, .codes (jsSortStrings l)))
    ∧ countHistogram .notArray = .error .histogramTypeInvalid
    ∧ (∀ l, (jsSortStrings l).Perm l)
    ∧ (∀ l, (jsSortStrings l).Pairwise (fun a b => strLeB a b = true))
    ∧ (∀ (pf : String → Int) (ppr : List (String × List (String × Nat)))
        (passengers : List PassengerEnv) (obj : PriceRspDoc) (doc2 : PriceRspDoc),
        airPriceRspPricingSolutionXML pf ppr passengers obj = Except.ok doc2 →
        ∃ sols s others infos infos2,
          obj.pricingSolutions = some sols
          ∧ doc2 = { obj with pricingSolutions := some ({ s with
              airSegmentRef := none
              airSegment := obj.itinerarySegments
              airPricingInfo := some infos2 } :: others) }
          ∧ (s :: others).Perm sols
          ∧ (1 < sols.length →
              (s :: others).Pairwise (fun a b =>
                pf (a.totalPrice.drop 3) ≤ pf (b.totalPrice.drop 3)))
          ∧ (sols.length ≤ 1 → s :: others = sols)
          ∧ s.airPricingInfo = some infos
          ∧ infos2.map (fun i => i.key) = infos.map (fun i => i.key)
          ∧ (infos2.map (fun i => i.passengerType.length)).sum = passengers.length) := by
  refine ⟨fun l => rfl, fun l => rfl, rfl, fun l => sortByLe_perm strLeB l,
    fun l => sortByLe_pairwise strLeB strLeB_trans strLeB_total l, ?_⟩
  intro pf ppr passengers obj doc2 h
  have htr : ∀ a b c, psLe pf a b = true → psLe pf b c = true → psLe pf a c = true := by
    intro a b c h1 h2
    simp only [psLe, decide_eq_true_eq] at h1 h2 ⊢
    exact le_trans h1 h2
  have hto : ∀ a b, psLe pf a b = true ∨ psLe pf b a = true := by
    intro a b
    simp only [psLe, decide_eq_true_eq]
    exact Int.le_total _ _
  unfold airPriceRspPricingSolutionXML at h
  rcases bind_ok_inv h with ⟨sols, hsols, h⟩
  rcases bind_ok_inv h with ⟨so, hso, h⟩
  rcases bind_ok_inv h with ⟨infos, hinfos, h⟩
  rcases bind_ok_inv h with ⟨infos2, hdist, h⟩
  have hdoc := Except.ok.inj h
  refine ⟨sols, so.1, so.2, infos, infos2, solsOf_ok hsols, hdoc.symm, ?_, ?_, ?_,
    piOf_ok hinfos, ?_, ?_⟩
  · have hperm : (jsSortSols pf sols).Perm sols := by
      unfold jsSortSols
      by_cases hlen : 1 < sols.length
      · rw [if_pos hlen]
        exact sortByLe_perm (psLe pf) sols
      · rw [if_neg hlen]
    exact (psHead_ok hso) ▸ hperm
  · intro hlen
    have hpw : (sortByLe (psLe pf) sols).Pairwise (fun a b =>
        pf (a.totalPrice.drop 3) ≤ pf (b.totalPrice.drop 3)) :=
      (sortByLe_pairwise (psLe pf) htr hto sols).imp
        (fun hx => by simpa [psLe] using hx)
    have hjs : jsSortSols pf sols = sortByLe (psLe pf) sols := by
      unfold jsSortSols
      rw [if_pos hlen]
    rw [← psHead_ok hso, hjs]
    exact hpw
  · intro hlen
    have hjs : jsSortSols pf sols = sols := by
      unfold jsSortSols
      rw [if_neg (by omega)]
    rw [← psHead_ok hso]
    exact hjs
  · exact (distLoop_map_key passengers 0 ppr _ infos2 hdist).trans (wipe_map_key infos)
  · have hs := distLoop_sum passengers 0 ppr _ infos2 hdist
    rw [wipe_sum infos] at hs
    omega

/-- C7 witness: on the concrete price response docC7 (two solutions, dearer
first, one adult passenger) the run succeeds and the characterization
applies: the cheaper solution is moved to the front and rewritten while the
other is carried over. -/
theorem claim_C7_witness :
    airPriceRspPricingSolutionXML pfC7 pprC7 passengersC7 docC7 = Except.ok docC7out
    ∧ (∃ sols s others infos infos2,
        docC7.pricingSolutions = some sols
        ∧ docC7out = { docC7 with pricingSolutions := some ({ s with
            airSegmentRef := none
            airSegment := docC7.itinerarySegments
            airPricingInfo := some infos2 } :: others) }
        ∧ (s :: others).Perm sols
        ∧ (1 < sols.length →
            (s :: others).Pairwise (fun a b =>
              pfC7 (a.totalPrice.drop 3) ≤ pfC7 (b.totalPrice.drop 3)))
        ∧ (sols.length ≤ 1 → s :: others = sols)
        ∧ s.airPricingInfo = some infos
        ∧ infos2.map (fun i => i.key) = infos.map (fun i => i.key)
        ∧ (infos2.map (fun i => i.passengerType.length)).sum = passengersC7.length) :=
  ⟨rfl, claim_C7_amended_normalization_mutation.2.2.2.2.2 pfC7 pprC7 passengersC7
    docC7 docC7out rfl⟩
